import Mathlib

/-!
Shallow embedding of the edgex-grid trading bot core, translated from the
Python sources (src/bot/grid_engine.py, src/bot/schedule_manager.py,
src/local-packages/edgex_sdk/ws/client.py, src/bot/adapters/edgex_sdk.py).
Prices, quantities and timestamps are modelled as exact rationals; the
explicit epsilon constants of the source (1e-9, 1e-6, 0.0001) are kept as
the corresponding rationals. Order ids are natural numbers; the adapter is
modelled as always succeeding, with fresh ids drawn from a counter.
-/

/-- Order side, `OrderSide` in src/bot/models/types.py. -/
inductive Side
  | buy
  | sell
deriving DecidableEq, Repr

/-- Position direction as returned by `_get_current_position_size_and_side`
("LONG" / "SHORT"; `none` models the Python `None` for a flat position). -/
inductive PosSide
  | long
  | short
deriving DecidableEq, Repr

/-- The literal `1e-9` used throughout `_ensure_grid` and `_has_min_gap`. -/
def eps9 : ℚ := 1 / 1000000000

/-- The literal `0.0001` flat-position threshold of the monitor and engine. -/
def flatEps : ℚ := 1 / 10000

/-- Python `round(x, 10)` from the helper `_r` in `_ensure_grid`.  Exact
rational arithmetic makes the tie-breaking convention irrelevant on the
lattice points this development evaluates it at (values `x` with
`x * 10^10` an integer), where every rounding convention is the identity;
see `roundTo10_eq_self`. -/
def roundTo10 (x : ℚ) : ℚ := ((round (x * 10 ^ 10) : ℤ) : ℚ) / 10 ^ 10

theorem roundTo10_eq_self (x : ℚ) (h : (x * 10 ^ 10).den = 1) : roundTo10 x = x := by
  have hx : ((x * 10 ^ 10).num : ℚ) = x * 10 ^ 10 := Rat.coe_int_num_of_den_eq_one h
  have hr : round (x * 10 ^ 10) = (x * 10 ^ 10).num := by
    rw [← hx]
    exact round_intCast _
  have h10 : (10 : ℚ) ^ 10 ≠ 0 := by norm_num
  rw [roundTo10, hr, hx]
  field_simp

/-! ### Schedule manager (src/bot/schedule_manager.py) -/

/-- One parsed schedule entry: the `from` / `to` timestamps (absolute time,
modelled as rationals after the source's ISO8601 parse and UTC defaulting)
and the optional `lot_coefficient` field (absent or unparsable collapses to
the default used by `get_lot_coefficient`). Entries whose `from`/`to` are
missing or unparsable are skipped by the source before this point and are
not represented. -/
structure SchedEntry where
  fromT : ℚ
  toT : ℚ
  lotCoefficient : Option ℚ
deriving DecidableEq, Repr

/-- `ScheduleManager.get_current_schedule`: the first schedule with
`from_dt <= now <= to_dt` (note both comparisons inclusive in the source). -/
def getCurrentSchedule (scheds : List SchedEntry) (now : ℚ) : Option SchedEntry :=
  scheds.find? (fun s => decide (s.fromT ≤ now) && decide (now ≤ s.toT))

/-- `ScheduleManager.is_active`. -/
def isActive (scheds : List SchedEntry) (now : ℚ) : Bool :=
  (getCurrentSchedule scheds now).isSome

/-- `ScheduleManager.get_lot_coefficient`: 0 outside any schedule, else the
entry's `lot_coefficient` with default 1. -/
def getLotCoefficient (scheds : List SchedEntry) (now : ℚ) : ℚ :=
  match getCurrentSchedule scheds now with
  | none => 0
  | some s => s.lotCoefficient.getD 1

/-- C6: the schedule containment test used by `is_active` is the closed
interval `from ≤ t ≤ to`, so `is_active` holds exactly on some interval
taken with both endpoints included. -/
theorem c6_closed_intervals (scheds : List SchedEntry) (t : ℚ) :
    isActive scheds t = true ↔ ∃ s ∈ scheds, s.fromT ≤ t ∧ t ≤ s.toT := by
  rw [isActive, getCurrentSchedule, List.find?_isSome]
  constructor
  · rintro ⟨s, hs, hp⟩
    rw [Bool.and_eq_true, decide_eq_true_iff, decide_eq_true_iff] at hp
    exact ⟨s, hs, hp⟩
  · rintro ⟨s, hs, h1, h2⟩
    exact ⟨s, hs, by rw [Bool.and_eq_true, decide_eq_true_iff, decide_eq_true_iff]; exact ⟨h1, h2⟩⟩

/-- C6 counterexample: with the single interval `[0, 100]`, `is_active` is
`true` at `t = to = 100`, contradicting the half-open `[from, to)` claim
that it is false at `t = to`. -/
theorem c6_active_at_right_endpoint :
    isActive [⟨0, 100, none⟩] 100 = true := by decide

/-! ### Position monitor (src/local-packages/edgex_sdk/ws/client.py) -/

/-- One entry of `all_positions` as consumed by
`_calculate_and_log_unrealized_pnl` (`openSize` / `openValue`, absent keys
modelled as `none`). -/
structure PosRow where
  openSize : Option ℚ
  openValue : Option ℚ
deriving DecidableEq, Repr

/-- Module-level configuration of ws/client.py read from the environment:
`LEVERAGE`, `LOSSCUT_PERCENTAGE`, `TAKEPROFIT_PERCENTAGE`,
`BALANCE_RECOVERY_ENABLED`, `INITIAL_BALANCE_USD`,
`EDGEX_RECOVERY_ENFORCE_LEVEL_USD`, `ASSET_LOSSCUT_PERCENTAGE`,
`ASSET_TAKEPROFIT_PERCENTAGE` (the last two default to 0 = disabled). -/
structure MonCfg where
  leverage : ℚ
  losscutPct : Option ℚ
  takeprofitPct : Option ℚ
  recoveryEnabled : Bool
  initialBalanceUsd : Option ℚ
  recoveryEnforceUsd : ℚ
  assetLosscutPct : ℚ
  assetTakeprofitPct : ℚ
deriving DecidableEq, Repr

/-- The monitor-relevant mutable fields of the WebSocket `Client`. -/
structure MonState where
  monitoringEnabled : Bool
  allPositions : List PosRow
  currentPosition : Option PosRow
  currentPrice : Option ℚ
  currentBalance : Option ℚ
  initialAsset : Option ℚ
  losscutTriggered : Bool
  balanceRecoveryTriggered : Bool
  assetLosscutTriggered : Bool
  assetTakeprofitTriggered : Bool
deriving DecidableEq, Repr

/-- Accumulator of the per-position loop of
`_calculate_and_log_unrealized_pnl`. -/
structure Totals where
  upnl : ℚ
  posValue : ℚ
  absSize : ℚ
  hasValid : Bool
  combinedSide : Option PosSide
deriving DecidableEq, Repr

/-- One iteration of the per-position loop: skip on missing keys or
`|size| < 0.0001`; side from the sign of `openSize`; entry price
`|openValue / openSize|`; LONG pnl `(price - entry) * |size|`, SHORT pnl
`(entry - price) * |size|`. -/
def totalsStep (price : ℚ) (t : Totals) (r : PosRow) : Totals :=
  match r.openSize, r.openValue with
  | some sz, some ov =>
    if |sz| < flatEps then t
    else
      let side := if 0 < sz then PosSide.long else PosSide.short
      let entry := |ov / sz|
      let pnl := if side = PosSide.long then (price - entry) * |sz| else (entry - price) * |sz|
      { upnl := t.upnl + pnl
        posValue := t.posValue + entry * |sz|
        absSize := t.absSize + |sz|
        hasValid := true
        combinedSide := match t.combinedSide with | none => some side | s => s }
  | _, _ => t

/-- The totals accumulated over `all_positions`. -/
def calcTotals (price : ℚ) (rows : List PosRow) : Totals :=
  rows.foldl (totalsStep price) ⟨0, 0, 0, false, none⟩

/-- `pnl_percentage`: `(total_unrealized_pnl / total_position_value) * 100 *
LEVERAGE` when the position value is positive, else 0. -/
def pnlPct (cfg : MonCfg) (t : Totals) : ℚ :=
  if 0 < t.posValue then t.upnl / t.posValue * 100 * cfg.leverage else 0

/-- Position loss-cut condition: `LOSSCUT_PERCENTAGE` configured and
`pnl_percentage <= -abs(LOSSCUT_PERCENTAGE)`. -/
def lcHit (cfg : MonCfg) (pct : ℚ) : Bool :=
  match cfg.losscutPct with
  | some v => decide (pct ≤ -|v|)
  | none => false

/-- Position take-profit condition: `TAKEPROFIT_PERCENTAGE` configured and
`pnl_percentage >= abs(TAKEPROFIT_PERCENTAGE)`.  The source raises the
same `losscut_triggered` latch for it. -/
def tpHit (cfg : MonCfg) (pct : ℚ) : Bool :=
  match cfg.takeprofitPct with
  | some v => decide (|v| ≤ pct)
  | none => false

/-- Balance-recovery latch update: requires recovery enabled, an initial
balance and a current balance; triggers when the loss from the initial
balance reaches the enforce level while balance plus unrealized pnl is
back at or above the initial balance. -/
def brHit (cfg : MonCfg) (st : MonState) (t : Totals) : Bool :=
  match cfg.recoveryEnabled, cfg.initialBalanceUsd, st.currentBalance with
  | true, some ib, some cb =>
    st.balanceRecoveryTriggered ||
      (decide (cfg.recoveryEnforceUsd ≤ ib - cb) && decide (ib ≤ cb + t.upnl))
  | _, _, _ => st.balanceRecoveryTriggered

/-- `Client._calculate_and_log_unrealized_pnl`, in single-assignment form:
early returns when monitoring is off, no position data, or no price; when
no position is valid, auto-clear `losscut_triggered` and
`balance_recovery_triggered`; otherwise update the position-pnl latch (the
take-profit check reuses the same flag), the balance-recovery latch, and —
when a balance is known and an asset threshold is configured — record
`initial_asset` on first reach and update the asset-based latches. -/
def monitorCalc (cfg : MonCfg) (st : MonState) : MonState :=
  if st.monitoringEnabled = false then st
  else if st.allPositions = [] then st
  else
    match st.currentPrice with
    | none => st
    | some price =>
      let t := calcTotals price st.allPositions
      if t.hasValid = false then
        { st with losscutTriggered := false, balanceRecoveryTriggered := false }
      else
        let pct := pnlPct cfg t
        let lc2 := st.losscutTriggered || lcHit cfg pct || tpHit cfg pct
        let br := brHit cfg st t
        let assetOn : Bool :=
          st.currentBalance.isSome &&
            (decide (0 < cfg.assetLosscutPct) || decide (0 < cfg.assetTakeprofitPct))
        let ia1 : Option ℚ :=
          if assetOn && st.initialAsset.isNone then st.currentBalance else st.initialAsset
        let apcOpt : Option ℚ :=
          if assetOn then
            match ia1, st.currentBalance with
            | some ia, some cb => if 0 < ia then some ((cb + t.upnl - ia) / ia * 100) else none
            | _, _ => none
          else none
        let alc :=
          match apcOpt with
          | some apc =>
            st.assetLosscutTriggered ||
              (decide (0 < cfg.assetLosscutPct) && decide (apc ≤ -|cfg.assetLosscutPct|))
          | none => st.assetLosscutTriggered
        let atp :=
          match apcOpt with
          | some apc =>
            st.assetTakeprofitTriggered ||
              (decide (0 < cfg.assetTakeprofitPct) && decide (|cfg.assetTakeprofitPct| ≤ apc))
          | none => st.assetTakeprofitTriggered
        { st with losscutTriggered := lc2, balanceRecoveryTriggered := br,
                  initialAsset := ia1, assetLosscutTriggered := alc,
                  assetTakeprofitTriggered := atp }

/-- An incoming private-stream message: a `trade-event` carrying position
rows and collateral amounts, or a ticker update from a `quote-event`. -/
inductive MEvent
  | tradeEvent (positions : List PosRow) (collateralAmounts : List ℚ)
  | tickerEvent (price : ℚ)
deriving DecidableEq, Repr

/-- The balance normalization of the trade-event handler: add back the
position value for a LONG `current_position`, subtract it for a SHORT. -/
def balanceAdjust (cur : Option PosRow) : ℚ :=
  match cur with
  | some r =>
    match r.openSize, r.openValue with
    | some sz, some ov =>
      if flatEps ≤ |sz| then (if 0 < sz then |ov| else if sz < 0 then -|ov| else 0) else 0
    | _, _ => 0
  | none => 0

/-- The collateral loop of the trade-event handler. -/
def applyCollateral (st : MonState) (amounts : List ℚ) : MonState :=
  amounts.foldl
    (fun s amt => { s with currentBalance := some (amt + balanceAdjust s.currentPosition) }) st

/-- The registered stream handlers: `trade_event_handler` (position rows
first, then the collateral loop when balance tracking is configured, then
the pnl calculation — only when the message carried positions) and
`quote_event_handler` (price update, then the pnl calculation). -/
def monitorStep (cfg : MonCfg) (st : MonState) (ev : MEvent) : MonState :=
  match ev with
  | .tickerEvent p => monitorCalc cfg { st with currentPrice := some p }
  | .tradeEvent posList amounts =>
    let st1 :=
      if posList = [] then st
      else { st with allPositions := posList, currentPosition := posList.head? }
    let needsTracking :=
      cfg.recoveryEnabled ∨ 0 < cfg.assetLosscutPct ∨ 0 < cfg.assetTakeprofitPct
    let st2 := if needsTracking then applyCollateral st1 amounts else st1
    if posList = [] then st2 else monitorCalc cfg st2

theorem applyCollateral_initialAsset : ∀ (amounts : List ℚ) (st : MonState),
    (applyCollateral st amounts).initialAsset = st.initialAsset
  | [], _ => rfl
  | _ :: rest, _ => applyCollateral_initialAsset rest _

theorem monitorCalc_initialAsset_some (cfg : MonCfg) (st : MonState) (v : ℚ)
    (h : st.initialAsset = some v) : (monitorCalc cfg st).initialAsset = some v := by
  rw [monitorCalc]
  split
  · exact h
  · split
    · exact h
    · split
      · exact h
      · dsimp only
        split
        · exact h
        · simp [h]


/-- C7 amended: the monitor never overwrites a recorded `initial_asset`
(first conjunct); it does record it — to the current balance — at any pnl
computation in which monitoring is on, the position list is nonempty with
a valid entry at the known price, a balance has been observed and an
asset threshold is configured, while `initial_asset` is still unset
(second conjunct, the recording case); and those conditions are also
necessary: a computation that changes `initial_asset` can only take it
from `none` to the current balance under exactly that guard — in
particular not at the first balance observation itself
(`c7_counterexample`).  Afterwards only the controller's asset-emergency
step rewrites it. -/
theorem c7_amended :
    (∀ (cfg : MonCfg) (st : MonState) (ev : MEvent) (v : ℚ),
        st.initialAsset = some v → (monitorStep cfg st ev).initialAsset = some v)
  ∧ (∀ (cfg : MonCfg) (st : MonState) (p : ℚ),
        st.monitoringEnabled = true → st.allPositions ≠ [] → st.currentPrice = some p →
        (calcTotals p st.allPositions).hasValid = true → st.currentBalance.isSome = true →
        (0 < cfg.assetLosscutPct ∨ 0 < cfg.assetTakeprofitPct) → st.initialAsset = none →
        (monitorCalc cfg st).initialAsset = st.currentBalance)
  ∧ (∀ (cfg : MonCfg) (st : MonState),
        (monitorCalc cfg st).initialAsset ≠ st.initialAsset →
          st.initialAsset = none
          ∧ (monitorCalc cfg st).initialAsset = st.currentBalance
          ∧ st.currentBalance.isSome = true
          ∧ (0 < cfg.assetLosscutPct ∨ 0 < cfg.assetTakeprofitPct)
          ∧ st.monitoringEnabled = true
          ∧ (∃ p, st.currentPrice = some p ∧ (calcTotals p st.allPositions).hasValid = true)
          ∧ st.allPositions ≠ []) := by
  refine ⟨?_, ?_, ?_⟩
  · intro cfg st ev v h
    cases ev with
    | tickerEvent p => exact monitorCalc_initialAsset_some _ _ _ h
    | tradeEvent posList amounts =>
      rw [monitorStep]
      by_cases hp : posList = []
      · by_cases ht : cfg.recoveryEnabled ∨ 0 < cfg.assetLosscutPct ∨ 0 < cfg.assetTakeprofitPct
        · simp only [if_pos hp, if_pos ht]
          rw [applyCollateral_initialAsset]
          exact h
        · simp only [if_pos hp, if_neg ht]
          exact h
      · by_cases ht : cfg.recoveryEnabled ∨ 0 < cfg.assetLosscutPct ∨ 0 < cfg.assetTakeprofitPct
        · simp only [if_neg hp, if_pos ht]
          apply monitorCalc_initialAsset_some
          rw [applyCollateral_initialAsset]
          exact h
        · simp only [if_neg hp, if_neg ht]
          exact monitorCalc_initialAsset_some _ _ _ h
  · intro cfg st p hEn hP hPr hv hbal hthr hia
    have hc : (st.currentBalance.isSome &&
        (decide (0 < cfg.assetLosscutPct) || decide (0 < cfg.assetTakeprofitPct))
          && st.initialAsset.isNone) = true := by
      simp only [Bool.and_eq_true, Bool.or_eq_true, decide_eq_true_eq]
      exact ⟨⟨hbal, hthr⟩, by simp [hia]⟩
    rw [monitorCalc, if_neg (by simp [hEn]), if_neg hP, hPr]
    dsimp only
    rw [if_neg (by simp [hv])]
    simp only [hc]
    simp
  · intro cfg st hne
    rw [monitorCalc] at hne
    by_cases hEn : st.monitoringEnabled = false
    · simp [hEn] at hne
    rw [if_neg hEn] at hne
    by_cases hP : st.allPositions = []
    · simp [hP] at hne
    rw [if_neg hP] at hne
    cases hPr : st.currentPrice with
    | none =>
      rw [hPr] at hne
      simp at hne
    | some price =>
      rw [hPr] at hne
      dsimp only at hne
      by_cases hv : (calcTotals price st.allPositions).hasValid = false
      · rw [if_pos hv] at hne
        simp at hne
      rw [if_neg hv] at hne
      by_cases hc : (st.currentBalance.isSome &&
          (decide (0 < cfg.assetLosscutPct) || decide (0 < cfg.assetTakeprofitPct))
            && st.initialAsset.isNone) = true
      · have hc2 := hc
        simp only [Bool.and_eq_true, Bool.or_eq_true, decide_eq_true_eq,
          Option.isSome_iff_exists, Option.isNone_iff_eq_none] at hc2
        obtain ⟨⟨hbal0, hthr0⟩, hia⟩ := hc2
        have hbal : st.currentBalance.isSome = true := by
          rcases hbal0 with ⟨b, hb⟩
          simp [hb]
        refine ⟨hia, ?_, hbal, hthr0, by simpa using hEn,
          ⟨price, rfl, by revert hv; cases (calcTotals price st.allPositions).hasValid <;>
            simp⟩, hP⟩
        rw [monitorCalc, if_neg hEn, if_neg hP, hPr]
        dsimp only
        rw [if_neg hv]
        simp only [hc]
        simp
      · rw [if_neg hc] at hne
        simp at hne

/-- Monitor configuration with an asset loss-cut threshold configured. -/
def c7cfg : MonCfg := ⟨100, none, none, false, none, 10, 1, 0⟩

/-- A fresh monitor state: nothing observed yet. -/
def c7st0 : MonState := ⟨true, [], none, none, none, none, false, false, false, false⟩

/-- C7 counterexample. -/
theorem c7_counterexample :
    (monitorStep c7cfg c7st0 (MEvent.tradeEvent [] [1000])).currentBalance = some 1000
  ∧ (monitorStep c7cfg c7st0 (MEvent.tradeEvent [] [1000])).initialAsset = none := by
  constructor <;> norm_num [monitorStep, applyCollateral, balanceAdjust, c7cfg, c7st0]

/-- A monitor state with `initial_asset` already recorded. -/
def c7stA : MonState :=
  ⟨true, [⟨some 1, some 100⟩], some ⟨some 1, some 100⟩, some 100, some 1000, some 5,
   false, false, false, false⟩

/-- A monitor state ripe for the first recording: monitoring on, one
valid position at a known price, a balance observed, `initial_asset`
still unset. -/
def c7stR : MonState :=
  ⟨true, [⟨some 1, some 100⟩], some ⟨some 1, some 100⟩, some 100, some 1000, none,
   false, false, false, false⟩

attribute [local semireducible] Rat.add Rat.mul Rat.inv Rat.sub in
/-- C7 witness: a recorded value survives a further pnl computation, and
a state meeting the full guard actually records `initial_asset := 1000`
(the current balance). -/
theorem c7_witness :
    (monitorStep c7cfg c7stA (MEvent.tickerEvent 101)).initialAsset = some 5
  ∧ (monitorCalc c7cfg c7stR).initialAsset = some 1000 :=
  ⟨c7_amended.1 c7cfg c7stA (MEvent.tickerEvent 101) 5 rfl,
   (c7_amended.2.1 c7cfg c7stR 100 rfl (by decide) rfl (by decide) rfl
      (Or.inl (by decide)) rfl).trans rfl⟩

theorem calcTotals_single (price sz ov : ℚ) (hsz : flatEps ≤ |sz|) :
    calcTotals price [⟨some sz, some ov⟩] =
      ⟨if 0 < sz then (price - |ov / sz|) * |sz| else (|ov / sz| - price) * |sz|,
       |ov / sz| * |sz|, |sz|, true,
       some (if 0 < sz then PosSide.long else PosSide.short)⟩ := by
  have hnlt : ¬ |sz| < flatEps := not_lt.mpr hsz
  by_cases h : 0 < sz <;> simp [calcTotals, totalsStep, hnlt, h]

theorem lcHit_iff (cfg : MonCfg) (pct : ℚ) :
    lcHit cfg pct = true ↔ ∃ v, cfg.losscutPct = some v ∧ pct ≤ -|v| := by
  cases h : cfg.losscutPct with
  | none => simp [lcHit, h]
  | some a => simp [lcHit, h]

theorem tpHit_iff (cfg : MonCfg) (pct : ℚ) :
    tpHit cfg pct = true ↔ ∃ v, cfg.takeprofitPct = some v ∧ |v| ≤ pct := by
  cases h : cfg.takeprofitPct with
  | none => simp [tpHit, h]
  | some a => simp [tpHit, h]

/-- C5 amended: for a single valid position the monitor computes
`unrealized_pnl = (price - entry)*|size|` for LONG (mirrored for SHORT)
and `pnl_pct = upnl / (entry*|size|) * 100 * leverage`, and the
`losscut_triggered` latch is raised exactly when it was already set, or
PLCP is configured and pnl_pct ≤ -|PLCP|, or — the correction — PTPP is
configured and pnl_pct ≥ |PTPP| (the source reuses the same flag for
take-profit). -/
theorem c5_pnl_formula_and_latch (cfg : MonCfg) (st : MonState) (sz ov p : ℚ)
    (hEn : st.monitoringEnabled = true)
    (hPos : st.allPositions = [⟨some sz, some ov⟩])
    (hPr : st.currentPrice = some p)
    (hsz : flatEps ≤ |sz|)
    (hpv : 0 < |ov / sz| * |sz|) :
    (calcTotals p st.allPositions).upnl =
      (if 0 < sz then (p - |ov / sz|) * |sz| else (|ov / sz| - p) * |sz|)
  ∧ (calcTotals p st.allPositions).posValue = |ov / sz| * |sz|
  ∧ ((monitorCalc cfg st).losscutTriggered = true ↔
      (st.losscutTriggered = true
       ∨ (∃ v, cfg.losscutPct = some v ∧
           (if 0 < sz then (p - |ov / sz|) * |sz| else (|ov / sz| - p) * |sz|) /
             (|ov / sz| * |sz|) * 100 * cfg.leverage ≤ -|v|)
       ∨ (∃ v, cfg.takeprofitPct = some v ∧
           |v| ≤ (if 0 < sz then (p - |ov / sz|) * |sz| else (|ov / sz| - p) * |sz|) /
             (|ov / sz| * |sz|) * 100 * cfg.leverage))) := by
  have htot := calcTotals_single p sz ov hsz
  refine ⟨by rw [hPos, htot], by rw [hPos, htot], ?_⟩
  have hEnf : ¬ st.monitoringEnabled = false := by simp [hEn]
  have hPne : ¬ st.allPositions = [] := by simp [hPos]
  rw [monitorCalc, if_neg hEnf, if_neg hPne, hPr]
  dsimp only
  rw [hPos, htot]
  have hvv : ¬ (false = false) = False := by simp
  have hpct : pnlPct cfg
      ⟨if 0 < sz then (p - |ov / sz|) * |sz| else (|ov / sz| - p) * |sz|,
       |ov / sz| * |sz|, |sz|, true,
       some (if 0 < sz then PosSide.long else PosSide.short)⟩ =
      (if 0 < sz then (p - |ov / sz|) * |sz| else (|ov / sz| - p) * |sz|) /
        (|ov / sz| * |sz|) * 100 * cfg.leverage := by
    rw [pnlPct, if_pos hpv]
  rw [if_neg (by simp : ¬ (Totals.hasValid ⟨_, _, _, true, _⟩ = false))]
  simp only [hpct, Bool.or_eq_true, lcHit_iff, tpHit_iff]
  exact or_assoc

/-- Monitor configuration of the loss-cut example: PLCP 5, leverage 10. -/
def c5cfg : MonCfg := ⟨10, some 5, none, false, none, 10, 0, 0⟩

/-- Monitor state of the loss-cut example: one LONG position of size 1 at
entry 100, last price 95.5. -/
def c5st : MonState :=
  ⟨true, [⟨some 1, some 100⟩], some ⟨some 1, some 100⟩, some (191 / 2), none, none,
   false, false, false, false⟩

/-- C5 witness. -/
theorem c5_witness : (monitorCalc c5cfg c5st).losscutTriggered = true :=
  (c5_pnl_formula_and_latch c5cfg c5st 1 100 (191 / 2) rfl rfl rfl
      (by norm_num [flatEps]) (by norm_num)).2.2.mpr
    (Or.inr (Or.inl ⟨5, rfl, by norm_num [c5cfg]⟩))

/-- Monitor configuration with both PLCP and PTPP configured at 5. -/
def c5tpCfg : MonCfg := ⟨10, some 5, some 5, false, none, 10, 0, 0⟩

/-- Monitor state: LONG size 1, entry 100, last price 150. -/
def c5tpSt : MonState :=
  ⟨true, [⟨some 1, some 100⟩], some ⟨some 1, some 100⟩, some 150, none, none,
   false, false, false, false⟩

/-- C5 counterexample. -/
theorem c5_counterexample :
    pnlPct c5tpCfg (calcTotals 150 [⟨some 1, some 100⟩]) = 500
  ∧ (monitorCalc c5tpCfg c5tpSt).losscutTriggered = true
  ∧ ¬ ((500 : ℚ) ≤ -|(5 : ℚ)|) := by
  refine ⟨by norm_num [pnlPct, calcTotals, totalsStep, flatEps, c5tpCfg], ?_, by norm_num⟩
  have h := (c5_pnl_formula_and_latch c5tpCfg c5tpSt 1 100 150 rfl rfl rfl
      (by norm_num [flatEps]) (by norm_num)).2.2
  exact h.mpr (Or.inr (Or.inr ⟨5, rfl, by norm_num [c5tpCfg]⟩))

/-! ### Grid engine (src/bot/grid_engine.py) -/

/-- Order ids (opaque strings in the source, modelled as naturals drawn
from a fresh-id counter standing for the adapter's responses). -/
abbrev OrderId := ℕ

/-- A price-to-order-id dict (`placed_buy_px_to_id` / `placed_sell_px_to_id`):
association list with unique keys and insertion order preserved. -/
abbrev PMap := List (ℚ × OrderId)

def pmHas (m : PMap) (k : ℚ) : Bool := m.any (fun e => decide (e.1 = k))

def pmLookup (m : PMap) (k : ℚ) : Option OrderId :=
  (m.find? (fun e => decide (e.1 = k))).map (fun e => e.2)

def pmInsert (m : PMap) (k : ℚ) (v : OrderId) : PMap :=
  if pmHas m k then m.map (fun e => if e.1 = k then (k, v) else e) else m ++ [(k, v)]

def pmErase (m : PMap) (k : ℚ) : PMap := m.filter (fun e => !(decide (e.1 = k)))

def pmKeys (m : PMap) : List ℚ := m.map (fun e => e.1)

def pmMaxKey (m : PMap) : Option ℚ :=
  m.foldl (fun acc e => match acc with | none => some e.1 | some b => some (max b e.1)) none

def pmMinKey (m : PMap) : Option ℚ :=
  m.foldl (fun acc e => match acc with | none => some e.1 | some b => some (min b e.1)) none

def insertAsc (x : ℚ) : List ℚ → List ℚ
  | [] => [x]
  | y :: ys => if x ≤ y then x :: y :: ys else y :: insertAsc x ys

/-- Python `sorted(...)` over a set of prices. -/
def sortAsc (l : List ℚ) : List ℚ := l.foldr insertAsc []

/-- Python `sorted(..., reverse=True)`. -/
def sortDesc (l : List ℚ) : List ℚ := (sortAsc l).reverse

def sBUY : String := "BUY"
def sSELL : String := "SELL"
def sLONG : String := "LONG"
def sSHORT : String := "SHORT"
def sOPEN : String := "OPEN"

/-- One row of the adapter's open-order response, normalized: the source
extracts the id from `orderId|id|order_id|clientOrderId|client_order_id`,
the price from `price|px|0`, the side from `side|orderSide` (uppercased)
and the `status` string; missing keys are `none`. -/
structure OrderRow where
  oid : Option OrderId
  sideName : Option String
  price : Option ℚ
  status : Option String
deriving DecidableEq, Repr

/-- `GridEngine._sync_active_orders_from_cache`: rebuild the two mirrors
from the cached rows, skipping rows with a non-OPEN status or a missing
price, id or side. -/
def syncActiveOrders (rows : List OrderRow) : PMap × PMap :=
  rows.foldl
    (fun acc r =>
      let blocked : Bool := match r.status with
        | some stt => !(decide (stt = "")) && !(decide (stt = sOPEN))
        | none => false
      if blocked then acc
      else
        match r.price, r.oid, r.sideName with
        | some px, some oid, some sdn =>
          if sdn = "" then acc
          else if sdn = sBUY ∨ sdn = sLONG then (pmInsert acc.1 px oid, acc.2)
          else if sdn = sSELL ∨ sdn = sSHORT then (acc.1, pmInsert acc.2 px oid)
          else acc
        | _, _, _ => acc)
    ([], [])

/-- Position-size limit configuration (BTC absolute or asset-ratio group;
startup validation enforces that exactly one group is configured). -/
structure LimitCfg where
  sizeLimitBtc : ℚ
  reduceOnlyBtc : ℚ
  sizeLimitRat : ℚ
  reduceOnlyRat : ℚ
deriving DecidableEq, Repr

/-- The engine parameters read once in `GridEngine.__init__`: `step` N,
`first_offset` X, `levels` L, `price_tick` τ, `size`, `enforce_levels`
and the position limits.  `simple_mode` (default on) is assumed, so the
exchange-wide distance rescan of `_place_order` is skipped. -/
structure EngineCfg where
  step : ℚ
  firstOffset : ℚ
  levels : ℕ
  priceTick : ℚ
  size : ℚ
  enforceLevels : Bool
  lim : LimitCfg
deriving DecidableEq, Repr

/-- Data the placement path reads from the adapter's private WebSocket
client: the aggregate position (absolute size, side), the streamed BTC
price and `initial_asset`. -/
structure PosCtx where
  posSize : ℚ
  posSide : Option PosSide
  btcPrice : Option ℚ
  initialAsset : Option ℚ
deriving DecidableEq, Repr

/-- The engine's mutable per-tick state: the two mirrors, the cached open
orders, `_reduce_mode`, the self-cross skip counter, and the fresh-id
counter standing for the adapter. -/
structure EState where
  buys : PMap
  sells : PMap
  cache : List OrderRow
  reduceMode : Bool
  selfCrossSkips : ℕ
  nextId : OrderId
deriving DecidableEq, Repr

/-- An adapter-visible operation issued by the engine. -/
inductive GAct
  | cancel (oid : OrderId)
  | submit (side : Side) (price qty : ℚ)
deriving DecidableEq, Repr

/-- `GridEngine._cancel_position_side_orders`: on entering reduce-mode,
cancel every mirror order on the position's own side (the cache is not
touched by this path in the source). -/
def cancelSideOrders (st : EState) (ps : PosSide) : EState × List GAct :=
  match ps with
  | .long => ({ st with buys := [] }, st.buys.map (fun e => GAct.cancel e.2))
  | .short => ({ st with sells := [] }, st.sells.map (fun e => GAct.cancel e.2))

/-- `GridEngine._check_and_clear_on_excessive_skips`: at `3 * levels`
self-cross skips, clear both mirrors, the cache and the counter. -/
def bumpSkip (cfg : EngineCfg) (st : EState) : EState :=
  let c := st.selfCrossSkips + 1
  if cfg.levels * 3 ≤ c then
    { st with buys := [], sells := [], cache := [], selfCrossSkips := 0 }
  else { st with selfCrossSkips := c }

/-- The BTC branch of the reduce-mode threshold update in `_place_order`:
enter reduce-mode at `pos_size >= limit` (cancelling the position-side
orders), then release it when `pos_size` drops strictly below the
release threshold. -/
def btcGate (cfg : EngineCfg) (pos : PosCtx) (st : EState) : EState × List GAct :=
  if 0 < cfg.lim.sizeLimitBtc ∨ 0 < cfg.lim.reduceOnlyBtc then
    let enter :=
      if 0 < cfg.lim.sizeLimitBtc ∧ cfg.lim.sizeLimitBtc ≤ pos.posSize ∧ st.reduceMode = false then
        match pos.posSide with
        | some ps => cancelSideOrders { st with reduceMode := true } ps
        | none => ({ st with reduceMode := true }, [])
      else (st, [])
    let rel :=
      if enter.1.reduceMode = true ∧ 0 < cfg.lim.reduceOnlyBtc ∧ pos.posSize < cfg.lim.reduceOnlyBtc then
        { enter.1 with reduceMode := false }
      else enter.1
    (rel, enter.2)
  else (st, [])

/-- The RATIO branch of the reduce-mode threshold update: evaluated only
for a nonzero position when the streamed BTC price and `initial_asset`
are available and positive; enter/release on
`btc_price * pos_size / initial_asset`. -/
def ratGate (cfg : EngineCfg) (pos : PosCtx) (st1 : EState) : EState × List GAct :=
  if 0 < cfg.lim.sizeLimitRat ∨ 0 < cfg.lim.reduceOnlyRat then
    if 0 < pos.posSize then
      match pos.btcPrice, pos.initialAsset with
      | some bp, some ia =>
        if 0 < bp ∧ 0 < ia then
          let ratioVal := bp * pos.posSize / ia
          let enter :=
            if 0 < cfg.lim.sizeLimitRat ∧ cfg.lim.sizeLimitRat ≤ ratioVal ∧ st1.reduceMode = false then
              match pos.posSide with
              | some ps => cancelSideOrders { st1 with reduceMode := true } ps
              | none => ({ st1 with reduceMode := true }, [])
            else (st1, [])
          let rel :=
            if enter.1.reduceMode = true ∧ 0 < cfg.lim.reduceOnlyRat ∧ ratioVal < cfg.lim.reduceOnlyRat then
              { enter.1 with reduceMode := false }
            else enter.1
          (rel, enter.2)
        else (st1, [])
      | _, _ => (st1, [])
    else (st1, [])
  else (st1, [])

/-- The reduce-mode threshold update at the head of `_place_order`: the
BTC branch followed by the RATIO branch. -/
def limitGate (cfg : EngineCfg) (pos : PosCtx) (st : EState) : EState × List GAct :=
  let b := btcGate cfg pos st
  let r := ratGate cfg pos b.1
  (r.1, b.2 ++ r.2)

/-- Whether an order of side `side` would increase the position magnitude
(LONG+BUY or SHORT+SELL). -/
def increasesPosition (pos : PosCtx) (side : Side) : Bool :=
  match pos.posSide with
  | some .long => decide (side = Side.buy)
  | some .short => decide (side = Side.sell)
  | none => false

/-- The self-cross guard and submission tail of `_place_order` (LIMIT path,
`simple_mode` on): skip with a counter bump when the opposite mirror holds
the same price; otherwise apply the lot coefficient (substituting 1 when
it is ≤ 0), submit, record the fresh id in the mirror and append the order
to the cached OPEN list. -/
def submitStep (cfg : EngineCfg) (lotCoeff : ℚ) (st : EState) (side : Side) (price : ℚ) :
    EState × List GAct :=
  if side = Side.buy ∧ pmHas st.sells price then (bumpSkip cfg st, [])
  else if side = Side.sell ∧ pmHas st.buys price then (bumpSkip cfg st, [])
  else
    let lc := if lotCoeff ≤ 0 then 1 else lotCoeff
    let q := cfg.size * lc
    let row : OrderRow :=
      ⟨some st.nextId, some (if side = Side.buy then sBUY else sSELL), some price, some sOPEN⟩
    match side with
    | .buy =>
      ({ st with buys := pmInsert st.buys price st.nextId, cache := st.cache ++ [row],
                 nextId := st.nextId + 1 }, [GAct.submit Side.buy price q])
    | .sell =>
      ({ st with sells := pmInsert st.sells price st.nextId, cache := st.cache ++ [row],
                 nextId := st.nextId + 1 }, [GAct.submit Side.sell price q])

/-- `GridEngine._place_order` for LIMIT orders: when a position limit is
configured, run the reduce-mode update and skip position-increasing
orders while the (updated) reduce-mode holds; then the submission tail. -/
def placeOrder (cfg : EngineCfg) (pos : PosCtx) (lotCoeff : ℚ) (st : EState)
    (side : Side) (price : ℚ) : EState × List GAct :=
  if 0 < cfg.lim.sizeLimitBtc ∨ 0 < cfg.lim.reduceOnlyBtc ∨
      0 < cfg.lim.sizeLimitRat ∨ 0 < cfg.lim.reduceOnlyRat then
    let g := limitGate cfg pos st
    if g.1.reduceMode = true ∧ increasesPosition pos side = true then g
    else
      let s := submitStep cfg lotCoeff g.1 side price
      (s.1, g.2 ++ s.2)
  else submitStep cfg lotCoeff st side price

/-- `GridEngine._has_min_gap`: `px` at least `step - 1e-9` away from every
existing same-side price. -/
def hasMinGap (step : ℚ) (m : PMap) (px : ℚ) : Bool :=
  m.all (fun e => !(decide (|e.1 - px| < step - eps9)))

/-- The BOX-mode buy lattice of `_ensure_grid`: `buy_start =
floor((P - X - 1e-9) / N) * N`, `L` rungs downward, kept when
`0 < px < P - 1e-9`, then rounded to 10 decimals by `_r`. -/
def boxBuyTargets (mid s X : ℚ) (L : ℕ) : List ℚ :=
  (((List.range L).map
      (fun (i : ℕ) => ((⌊(mid - X - eps9) / s⌋ : ℤ) : ℚ) * s - (i : ℚ) * s)).filter
    (fun px => decide (0 < px) && decide (px < mid - eps9))).map roundTo10

/-- The BOX-mode sell lattice: `sell_start = ceil((P + X + 1e-9) / N) * N`,
`L` rungs upward, kept when `px > P + 1e-9`, rounded to 10 decimals. -/
def boxSellTargets (mid s X : ℚ) (L : ℕ) : List ℚ :=
  (((List.range L).map
      (fun (i : ℕ) => ((⌈(mid + X + eps9) / s⌉ : ℤ) : ℚ) * s + (i : ℚ) * s)).filter
    (fun px => decide (mid + eps9 < px))).map roundTo10

/-- The BOX cancel loop: pop each price from the mirror (skipping a key
miss, the `KeyError` path) and cancel the popped id. -/
def cancelPhase (m : PMap) (toCancel : List ℚ) : PMap × List GAct :=
  toCancel.foldl
    (fun acc px =>
      match pmLookup acc.1 px with
      | some oid => (pmErase acc.1 px, acc.2 ++ [GAct.cancel oid])
      | none => acc)
    (m, [])

/-- One iteration of the alternating add loop at the end of the BOX
branch of `_ensure_grid`: draw the next target of the current side, place
it when `_has_min_gap` allows (consuming it either way); on a failed or
exhausted draw, flip sides, try the other iterator once and either
continue from there (`next`) or stop. -/
def altLoopBody (cfg : EngineCfg) (pos : PosCtx) (lot : ℚ)
    (next : Side → List ℚ → List ℚ → EState → EState × List GAct)
    (cur : Side) (bl sl : List ℚ) (st : EState) : EState × List GAct :=
  let mainT : Bool × List ℚ × List ℚ × EState × List GAct :=
    match cur, bl, sl with
    | .buy, px :: rest, _ =>
      if hasMinGap cfg.step st.buys px then
        let r := placeOrder cfg pos lot st Side.buy px
        (true, rest, sl, r.1, r.2)
      else (false, rest, sl, st, [])
    | .buy, [], _ => (false, [], sl, st, [])
    | .sell, _, px :: rest =>
      if hasMinGap cfg.step st.sells px then
        let r := placeOrder cfg pos lot st Side.sell px
        (true, bl, rest, r.1, r.2)
      else (false, bl, rest, st, [])
    | .sell, _, [] => (false, bl, [], st, [])
  match mainT with
  | (placed, bl1, sl1, st1, a1) =>
    let nxt : Side := match cur with | .buy => Side.sell | .sell => Side.buy
    if placed then
      let r := next nxt bl1 sl1 st1
      (r.1, a1 ++ r.2)
    else
      match nxt with
      | .buy =>
        match bl1 with
        | px :: rest =>
          if hasMinGap cfg.step st1.buys px then
            let p := placeOrder cfg pos lot st1 Side.buy px
            let r := next Side.buy rest sl1 p.1
            (r.1, a1 ++ p.2 ++ r.2)
          else (st1, a1)
        | [] => (st1, a1)
      | .sell =>
        match sl1 with
        | px :: rest =>
          if hasMinGap cfg.step st1.sells px then
            let p := placeOrder cfg pos lot st1 Side.sell px
            let r := next Side.sell bl1 rest p.1
            (r.1, a1 ++ p.2 ++ r.2)
          else (st1, a1)
        | [] => (st1, a1)

/-- The alternating add loop, fuel-indexed (the fuel passed by
`ensureGridBox` is the total number of remaining targets plus one, enough
for the loop to run to its `break`). -/
def altLoop (cfg : EngineCfg) (pos : PosCtx) (lot : ℚ) :
    ℕ → Side → List ℚ → List ℚ → EState → EState × List GAct
  | 0, _, _, _, st => (st, [])
  | Nat.succ fuel, cur, bl, sl, st =>
    altLoopBody cfg pos lot (altLoop cfg pos lot fuel) cur bl sl st

/-- The BOX branch of `GridEngine._ensure_grid` (the default mode): build
the two target lattices, keep existing rungs that are within tolerance of
a target or inside the dead band, cancel the rest, and add the missing
targets alternating from the close-first side. -/
def ensureGridBox (cfg : EngineCfg) (pos : PosCtx) (lot : ℚ) (st : EState)
    (mid : ℚ) : EState × List GAct :=
  if cfg.step ≤ 0 then (st, [])
  else
    let targetBuys := (boxBuyTargets mid cfg.step cfg.firstOffset cfg.levels).dedup
    let targetSells := (boxSellTargets mid cfg.step cfg.firstOffset cfg.levels).dedup
    let currentBuys := (st.buys.map (fun e => roundTo10 e.1)).dedup
    let currentSells := (st.sells.map (fun e => roundTo10 e.1)).dedup
    let tol := max (cfg.priceTick * (101 / 100)) (1 / 1000000)
    let keepBuys :=
      (currentBuys.filter (fun px => targetBuys.any (fun t => decide (|px - t| ≤ tol))) ++
        currentBuys.filter (fun px => decide (mid - cfg.firstOffset - tol ≤ px))).dedup
    let keepSells :=
      (currentSells.filter (fun px => targetSells.any (fun t => decide (|px - t| ≤ tol))) ++
        currentSells.filter (fun px => decide (px ≤ mid + cfg.firstOffset + tol))).dedup
    let cancelBuys := sortAsc (currentBuys.filter (fun px => !(decide (px ∈ keepBuys))))
    let cancelSells := sortAsc (currentSells.filter (fun px => !(decide (px ∈ keepSells))))
    let cb := cancelPhase st.buys cancelBuys
    let stA := { st with buys := cb.1 }
    let cs := cancelPhase stA.sells cancelSells
    let stB := { stA with sells := cs.1 }
    let missingBuys :=
      sortDesc (targetBuys.filter (fun px => !(keepBuys.any (fun c => decide (|c - px| ≤ tol)))))
    let missingSells :=
      sortAsc (targetSells.filter (fun px => !(keepSells.any (fun c => decide (|c - px| ≤ tol)))))
    if missingBuys = [] ∧ missingSells = [] then (stB, cb.2 ++ cs.2)
    else
      let closeFirst : Side := if pos.posSide = some PosSide.short then Side.buy else Side.sell
      let r := altLoop cfg pos lot (missingBuys.length + missingSells.length + 1)
        closeFirst missingBuys missingSells stB
      (r.1, cb.2 ++ cs.2 ++ r.2)

/-- Python `max` over a nonempty price list (0 as an unused default). -/
def listMax : List ℚ → ℚ
  | [] => 0
  | x :: xs => xs.foldl max x

/-- Python `min` over a nonempty price list. -/
def listMin : List ℚ → ℚ
  | [] => 0
  | x :: xs => xs.foldl min x

/-- Pop the entry with the largest key (`max(keys)` followed by `pop`). -/
def pmPopMax (m : PMap) : Option (ℚ × OrderId × PMap) :=
  match pmMaxKey m with
  | none => none
  | some k =>
    match pmLookup m k with
    | some oid => some (k, oid, pmErase m k)
    | none => none

/-- Pop the entry with the smallest key. -/
def pmPopMin (m : PMap) : Option (ℚ × OrderId × PMap) :=
  match pmMinKey m with
  | none => none
  | some k =>
    match pmLookup m k with
    | some oid => some (k, oid, pmErase m k)
    | none => none

/-- `GridEngine._remove_from_cache`. -/
def removeFromCache (cache : List OrderRow) (oid : OrderId) : List OrderRow :=
  cache.filter (fun r => !(decide (r.oid = some oid)))

/-- The BUY-fill branch of `_replenish_if_filled`, run once per tick when
at least one BUY fill was detected: cancel the furthest SELL (largest
price), add a SELL one step below the nearest remaining SELL, and add a
BUY one step below the furthest remaining BUY.  `snap` models the local
alias `active_orders = self._cached_active_orders` taken at the top of
`_replenish_if_filled`: `_add_to_cache` appends to the aliased list in
place, but `_remove_from_cache` rebinds `_cached_active_orders` to a
fresh list, so the first removal freezes the alias at the pre-removal
contents (`none` = alias and cache still coincide, `some v` = alias
broken with frozen contents `v`). -/
def buyReplenish (cfg : EngineCfg) (pos : PosCtx) (lot : ℚ) (filledBuys : List ℚ)
    (st1 : EState) (snap : Option (List OrderRow)) :
    EState × Option (List OrderRow) × List GAct :=
  if filledBuys = [] then (st1, snap, [])
  else
    let farC : EState × Option (List OrderRow) × List GAct :=
      match pmPopMax st1.sells with
      | some (_, oid, rest) =>
        ({ st1 with sells := rest, cache := removeFromCache st1.cache oid },
         some (snap.getD st1.cache), [GAct.cancel oid])
      | none => (st1, snap, [])
    let stc := farC.1
    let baseNearSell :=
      match pmMinKey stc.sells with
      | some m => m
      | none => listMax filledBuys + cfg.step
    let newNearSell := baseNearSell - cfg.step
    let nearP : EState × List GAct :=
      if !(pmHas stc.sells newNearSell) ∧ 0 < newNearSell then
        placeOrder cfg pos lot stc Side.sell newNearSell
      else (stc, [])
    let std := nearP.1
    let baseOuterBuy :=
      match pmMinKey std.buys with
      | some m => m
      | none => listMin filledBuys - cfg.step
    let newOuterBuy := baseOuterBuy - cfg.step
    let outP : EState × List GAct :=
      if 0 < newOuterBuy ∧ !(pmHas std.buys newOuterBuy) then
        placeOrder cfg pos lot std Side.buy newOuterBuy
      else (std, [])
    (outP.1, farC.2.1, farC.2.2 ++ nearP.2 ++ outP.2)

/-- The SELL-fill branch of `_replenish_if_filled`, symmetric to
`buyReplenish` (the outer-SELL add carries no positivity check in the
source); `snap` threads the entry-time alias as in `buyReplenish`. -/
def sellReplenish (cfg : EngineCfg) (pos : PosCtx) (lot : ℚ) (filledSells : List ℚ)
    (st2 : EState) (snap : Option (List OrderRow)) :
    EState × Option (List OrderRow) × List GAct :=
  if filledSells = [] then (st2, snap, [])
  else
    let farC : EState × Option (List OrderRow) × List GAct :=
      match pmPopMin st2.buys with
      | some (_, oid, rest) =>
        ({ st2 with buys := rest, cache := removeFromCache st2.cache oid },
         some (snap.getD st2.cache), [GAct.cancel oid])
      | none => (st2, snap, [])
    let stc := farC.1
    let baseNearBuy :=
      match pmMaxKey stc.buys with
      | some m => m
      | none => listMin filledSells - cfg.step
    let newNearBuy := baseNearBuy + cfg.step
    let nearP : EState × List GAct :=
      if !(pmHas stc.buys newNearBuy) ∧ 0 < newNearBuy then
        placeOrder cfg pos lot stc Side.buy newNearBuy
      else (stc, [])
    let std := nearP.1
    let baseOuterSell :=
      match pmMaxKey std.sells with
      | some m => m
      | none => listMax filledSells + cfg.step
    let newOuterSell := baseOuterSell + cfg.step
    let outP : EState × List GAct :=
      if !(pmHas std.sells newOuterSell) then
        placeOrder cfg pos lot std Side.sell newOuterSell
      else (std, [])
    (outP.1, farC.2.1, farC.2.2 ++ nearP.2 ++ outP.2)

/-- The trailing unmanaged-order sweep of `_replenish_if_filled`: with
`enforce_levels`, cancel at most three OPEN ids the mirrors do not own.
The sweep's `for row in active_orders` iterates the alias captured at the
top of the function, not `self._cached_active_orders`: once a replenish
removal has rebound the cache, the sweep still sees the stale entry-time
list (`snap`), so it can re-cancel an id the replenish phase already
cancelled and removed.  The removals it performs itself act on the live
cache. -/
def enforcePass (cfg : EngineCfg) (st3 : EState) (snap : Option (List OrderRow)) :
    EState × List GAct :=
  if cfg.enforceLevels then
    let placedIds := st3.buys.map (fun e => e.2) ++ st3.sells.map (fun e => e.2)
    let unknown :=
      ((snap.getD st3.cache).filterMap
        (fun r =>
          match r.oid with
          | some oid =>
            if decide (oid ∈ placedIds) then none
            else
              match r.status with
              | some stt => if stt ≠ "" ∧ stt ≠ sOPEN then none else some oid
              | none => some oid
          | none => none)).take 3
    unknown.foldl
      (fun acc oid =>
        ({ acc.1 with cache := removeFromCache acc.1.cache oid }, acc.2 ++ [GAct.cancel oid]))
      (st3, [])
  else (st3, [])

/-- `GridEngine._replenish_if_filled` (BOX path; `bin_mode` off): detect
fills as mirror ids absent from the cached open set, drop them from the
mirrors, run the BUY-fill branch once, the SELL-fill branch once, then
the unmanaged-order sweep over the entry-time alias (fresh at entry, so
the alias starts unbroken: `snap = none`). -/
def replenishIfFilled (cfg : EngineCfg) (pos : PosCtx) (lot : ℚ) (st : EState) :
    EState × List GAct :=
  let activeIds := st.cache.filterMap (fun r => r.oid)
  let filledBuys := (st.buys.filter (fun e => !(decide (e.2 ∈ activeIds)))).map (fun e => e.1)
  let filledSells := (st.sells.filter (fun e => !(decide (e.2 ∈ activeIds)))).map (fun e => e.1)
  let st1 := { st with buys := st.buys.filter (fun e => decide (e.2 ∈ activeIds)),
                       sells := st.sells.filter (fun e => decide (e.2 ∈ activeIds)) }
  let b := buyReplenish cfg pos lot filledBuys st1 none
  let s := sellReplenish cfg pos lot filledSells b.1 b.2.1
  let e := enforcePass cfg s.1 s.2.1
  (e.1, b.2.2 ++ s.2.2 ++ e.2)

/-! ### Capability guards of the controller (GridEngine.run, src/run_edgex_grid.py) -/

/-- The attribute and method names defined on `EdgeXSDKAdapter`
(src/bot/adapters/edgex_sdk.py) together with those inherited from
`ExchangeAdapter` (src/bot/adapters/base.py): this is the adapter the
entry point `run_edgex_grid.main` constructs. -/
def edgexSDKAdapterMembers : List String :=
  ["name", "base_url", "account_id", "stark_private_key", "_client", "_market_rules",
   "_last_depth", "_now_ms", "connect", "close", "get_ticker", "get_best_bid_ask",
   "_get_market_rules", "place_order", "cancel_order", "fetch_balances",
   "list_active_orders", "fetch_positions"]

/-- Python `hasattr` over the modelled member list. -/
def pyHasattr (members : List String) (a : String) : Bool := members.contains a

/-- The five emergency procedures of the main loop, in their priority
order. -/
inductive Emergency
  | positionLosscut
  | positionTakeprofit
  | balanceRecovery
  | assetLosscut
  | assetTakeprofit
deriving DecidableEq, Repr

def nmLosscut : String := "is_losscut_triggered"
def nmTakeprofit : String := "is_takeprofit_triggered"
def nmBalanceRecovery : String := "is_balance_recovery_triggered"
def nmAssetLosscut : String := "is_asset_losscut_triggered"
def nmAssetTakeprofit : String := "is_asset_takeprofit_triggered"
def nmClosePosition : String := "close_position_from_websocket"

/-- The emergency-selection cascade of `GridEngine.run`: each check is a
`hasattr` guard conjoined with the adapter's trigger flag (`trig` gives
the flag values the adapter would report if asked). -/
def emergencyBranch (members : List String) (trig : String → Bool) : Option Emergency :=
  if pyHasattr members nmLosscut && trig nmLosscut then some Emergency.positionLosscut
  else if pyHasattr members nmTakeprofit && trig nmTakeprofit then some Emergency.positionTakeprofit
  else if pyHasattr members nmBalanceRecovery && trig nmBalanceRecovery then
    some Emergency.balanceRecovery
  else if pyHasattr members nmAssetLosscut && trig nmAssetLosscut then some Emergency.assetLosscut
  else if pyHasattr members nmAssetTakeprofit && trig nmAssetTakeprofit then
    some Emergency.assetTakeprofit
  else none

/-- C9: with the adapter the program actually constructs, every capability
guard is false, so no tick of the main loop ever selects an emergency
wind-down procedure, whatever the stream-side trigger flags would say;
the flatten primitive the procedures would call is absent as well. -/
theorem c9_no_emergency_reachable :
    (∀ trig : String → Bool, emergencyBranch edgexSDKAdapterMembers trig = none)
  ∧ pyHasattr edgexSDKAdapterMembers nmLosscut = false
  ∧ pyHasattr edgexSDKAdapterMembers nmTakeprofit = false
  ∧ pyHasattr edgexSDKAdapterMembers nmBalanceRecovery = false
  ∧ pyHasattr edgexSDKAdapterMembers nmAssetLosscut = false
  ∧ pyHasattr edgexSDKAdapterMembers nmAssetTakeprofit = false
  ∧ pyHasattr edgexSDKAdapterMembers nmClosePosition = false := by
  refine ⟨?_, by decide, by decide, by decide, by decide, by decide, by decide⟩
  intro trig
  have h1 : pyHasattr edgexSDKAdapterMembers nmLosscut = false := by decide
  have h2 : pyHasattr edgexSDKAdapterMembers nmTakeprofit = false := by decide
  have h3 : pyHasattr edgexSDKAdapterMembers nmBalanceRecovery = false := by decide
  have h4 : pyHasattr edgexSDKAdapterMembers nmAssetLosscut = false := by decide
  have h5 : pyHasattr edgexSDKAdapterMembers nmAssetTakeprofit = false := by decide
  simp [emergencyBranch, h1, h2, h3, h4, h5]

/-- Engine parameters of the cold BOX scenario: N=50, X=100, L=3, τ=0.1,
size 0.01, enforce_levels on, BTC limit 1 / release 0.5. -/
def c1cfg : EngineCfg := ⟨50, 100, 3, 1 / 10, 1 / 100, true, ⟨1, 1 / 2, 0, 0⟩⟩

/-- A flat position context. -/
def c1pos : PosCtx := ⟨0, none, none, none⟩

/-- The empty engine state (empty mirror and cache, fresh ids from 1). -/
def c1st : EState := ⟨[], [], [], false, 0, 1⟩

attribute [local semireducible] Rat.add Rat.mul Rat.inv Rat.sub in
/-- C1: one BOX placement pass from the empty mirror at mid 30000 issues
exactly the six rungs, interleaved starting with SELL, and leaves the
mirror with buys {29750, 29800, 29850} and sells {30150, 30200, 30250}. -/
theorem c1_cold_box_placement :
    (ensureGridBox c1cfg c1pos 0 c1st 30000).2 =
      [GAct.submit Side.sell 30150 (1 / 100), GAct.submit Side.buy 29850 (1 / 100),
       GAct.submit Side.sell 30200 (1 / 100), GAct.submit Side.buy 29800 (1 / 100),
       GAct.submit Side.sell 30250 (1 / 100), GAct.submit Side.buy 29750 (1 / 100)]
  ∧ sortAsc (pmKeys (ensureGridBox c1cfg c1pos 0 c1st 30000).1.buys) = [29750, 29800, 29850]
  ∧ sortAsc (pmKeys (ensureGridBox c1cfg c1pos 0 c1st 30000).1.sells) = [30150, 30200, 30250] := by
  decide

/-- The BOX buy lattice as the specification words it: `buy_start =
floor((mid - X)/N) * N` and targets `{buy_start - iN : i ∈ [0, L)} ∩
(0, mid)` — no epsilon shift and no rounding.  Stated for comparison with
`boxBuyTargets`, the translation of the code. -/
def specBoxBuyTargets (mid s X : ℚ) (L : ℕ) : List ℚ :=
  ((List.range L).map (fun (i : ℕ) => ((⌊(mid - X) / s⌋ : ℤ) : ℚ) * s - (i : ℚ) * s)).filter
    (fun px => decide (0 < px) && decide (px < mid))

/-- The BOX sell lattice as the specification words it: `sell_start =
ceil((mid + X)/N) * N` and targets `{sell_start + iN : i ∈ [0, L)} ∩
(mid, ∞)`. -/
def specBoxSellTargets (mid s X : ℚ) (L : ℕ) : List ℚ :=
  ((List.range L).map (fun (i : ℕ) => ((⌈(mid + X) / s⌉ : ℤ) : ℚ) * s + (i : ℚ) * s)).filter
    (fun px => decide (mid < px))

attribute [local semireducible] Rat.add Rat.mul Rat.inv Rat.sub in
/-- C3 counterexample: at mid 30000, N 50, X 100, L 3 — where `mid - X =
29900` and `mid + X = 30100` are exact multiples of N — the code's
epsilon-shifted lattice starts one rung lower (buys from 29850, not from
the spec's 29900; sells from 30150, not 30100), so the claimed target
sets are wrong. -/
theorem c3_counterexample :
    boxBuyTargets 30000 50 100 3 = [29850, 29800, 29750]
  ∧ specBoxBuyTargets 30000 50 100 3 = [29900, 29850, 29800]
  ∧ boxSellTargets 30000 50 100 3 = [30150, 30200, 30250]
  ∧ specBoxSellTargets 30000 50 100 3 = [30100, 30150, 30200]
  ∧ (29750 ∈ boxBuyTargets 30000 50 100 3 ∧ 29750 ∉ specBoxBuyTargets 30000 50 100 3)
  ∧ (30250 ∈ boxSellTargets 30000 50 100 3 ∧ 30250 ∉ specBoxSellTargets 30000 50 100 3) := by
  decide

theorem den_one_int_mul (a : ℤ) (q : ℚ) (h : q.den = 1) : (((a : ℚ)) * q).den = 1 := by
  rw [← Rat.coe_int_num_of_den_eq_one h, ← Int.cast_mul]
  exact Rat.den_intCast _

/-- C3 amended: for every mid, step N > 0 and offset X, the BOX targets
are `{floor((mid - X - 1e-9)/N)*N - iN : i ∈ [0, L)} ∩ (0, mid - 1e-9)`
on the buy side and `{ceil((mid + X + 1e-9)/N)*N + iN : i ∈ [0, L)} ∩
(mid + 1e-9, ∞)` on the sell side — the 1e-9 shift moves the start one
rung outward exactly when mid ∓ X is an exact multiple of N.  The
10-decimal rounding is the identity here (hypothesis: N * 10^10 is an
integer, true of any real price step). -/
theorem c3_box_lattice (mid s X : ℚ) (L : ℕ) (hs : 0 < s)
    (hden : (s * 10 ^ 10).den = 1) (p : ℚ) :
    (p ∈ boxBuyTargets mid s X L ↔
      ∃ i : ℕ, i < L ∧ p = ((⌊(mid - X - eps9) / s⌋ : ℤ) : ℚ) * s - (i : ℚ) * s
        ∧ 0 < p ∧ p < mid - eps9)
  ∧ (p ∈ boxSellTargets mid s X L ↔
      ∃ i : ℕ, i < L ∧ p = ((⌈(mid + X + eps9) / s⌉ : ℤ) : ℚ) * s + (i : ℚ) * s
        ∧ mid + eps9 < p) := by
  have hr : ∀ (a : ℤ) (i : ℕ),
      roundTo10 ((a : ℚ) * s - (i : ℚ) * s) = (a : ℚ) * s - (i : ℚ) * s := by
    intro a i
    apply roundTo10_eq_self
    have he : ((a : ℚ) * s - (i : ℚ) * s) * 10 ^ 10 = ((a - (i : ℤ) : ℤ) : ℚ) * (s * 10 ^ 10) := by
      push_cast
      ring
    rw [he]
    exact den_one_int_mul _ _ hden
  have hr2 : ∀ (a : ℤ) (i : ℕ),
      roundTo10 ((a : ℚ) * s + (i : ℚ) * s) = (a : ℚ) * s + (i : ℚ) * s := by
    intro a i
    apply roundTo10_eq_self
    have he : ((a : ℚ) * s + (i : ℚ) * s) * 10 ^ 10 = ((a + (i : ℤ) : ℤ) : ℚ) * (s * 10 ^ 10) := by
      push_cast
      ring
    rw [he]
    exact den_one_int_mul _ _ hden
  have hbuy : boxBuyTargets mid s X L =
      ((List.range L).map
        (fun (i : ℕ) => ((⌊(mid - X - eps9) / s⌋ : ℤ) : ℚ) * s - (i : ℚ) * s)).filter
        (fun px => decide (0 < px) && decide (px < mid - eps9)) := by
    rw [boxBuyTargets]
    refine (List.map_congr_left ?_).trans (List.map_id _)
    intro x hx
    rcases List.mem_filter.mp hx with ⟨hmem, _⟩
    rcases List.mem_map.mp hmem with ⟨i, _, rfl⟩
    exact hr _ i
  have hsell : boxSellTargets mid s X L =
      ((List.range L).map
        (fun (i : ℕ) => ((⌈(mid + X + eps9) / s⌉ : ℤ) : ℚ) * s + (i : ℚ) * s)).filter
        (fun px => decide (mid + eps9 < px)) := by
    rw [boxSellTargets]
    refine (List.map_congr_left ?_).trans (List.map_id _)
    intro x hx
    rcases List.mem_filter.mp hx with ⟨hmem, _⟩
    rcases List.mem_map.mp hmem with ⟨i, _, rfl⟩
    exact hr2 _ i
  constructor
  · rw [hbuy]
    simp only [List.mem_filter, List.mem_map, List.mem_range, Bool.and_eq_true,
      decide_eq_true_eq]
    constructor
    · rintro ⟨⟨i, hiL, hfi⟩, h0, hlt⟩
      exact ⟨i, hiL, hfi.symm, h0, hlt⟩
    · rintro ⟨i, hiL, hpe, h0, hlt⟩
      exact ⟨⟨i, hiL, hpe.symm⟩, h0, hlt⟩
  · rw [hsell]
    simp only [List.mem_filter, List.mem_map, List.mem_range, decide_eq_true_eq]
    constructor
    · rintro ⟨⟨i, hiL, hfi⟩, hgt⟩
      exact ⟨i, hiL, hfi.symm, hgt⟩
    · rintro ⟨i, hiL, hpe, hgt⟩
      exact ⟨⟨i, hiL, hpe.symm⟩, hgt⟩

attribute [local semireducible] Rat.add Rat.mul Rat.inv Rat.sub in
/-- C3 witness. -/
theorem c3_box_lattice_witness :
    29850 ∈ boxBuyTargets 30000 50 100 3 ↔
      ∃ i : ℕ, i < 3 ∧ (29850 : ℚ) = ((⌊((30000 : ℚ) - 100 - eps9) / 50⌋ : ℤ) : ℚ) * 50 - (i : ℚ) * 50
        ∧ (0 : ℚ) < 29850 ∧ (29850 : ℚ) < 30000 - eps9 :=
  (c3_box_lattice 30000 50 100 3 (by norm_num) (by decide) 29850).1

theorem cancelSideOrders_acts (st : EState) (ps : PosSide) :
    ∀ a ∈ (cancelSideOrders st ps).2, ∃ oid, a = GAct.cancel oid := by
  intro a ha
  cases ps <;> simp only [cancelSideOrders] at ha <;>
    · rcases List.mem_map.mp ha with ⟨e, _, rfl⟩
      exact ⟨e.2, rfl⟩

theorem btcGate_acts (cfg : EngineCfg) (pos : PosCtx) (st : EState) :
    ∀ a ∈ (btcGate cfg pos st).2, ∃ oid, a = GAct.cancel oid := by
  intro a ha
  rw [btcGate] at ha
  split at ha
  · dsimp only at ha
    split at ha
    · split at ha
      · exact cancelSideOrders_acts _ _ a ha
      · simp at ha
    · simp at ha
  · simp at ha

theorem ratGate_acts (cfg : EngineCfg) (pos : PosCtx) (st1 : EState) :
    ∀ a ∈ (ratGate cfg pos st1).2, ∃ oid, a = GAct.cancel oid := by
  intro a ha
  rw [ratGate] at ha
  split at ha
  · split at ha
    · split at ha
      · split at ha
        · dsimp only at ha
          split at ha
          · split at ha
            · exact cancelSideOrders_acts _ _ a ha
            · simp at ha
          · simp at ha
        · simp at ha
      · simp at ha
    · simp at ha
  · simp at ha

theorem limitGate_acts (cfg : EngineCfg) (pos : PosCtx) (st : EState) :
    ∀ a ∈ (limitGate cfg pos st).2, ∃ oid, a = GAct.cancel oid := by
  intro a ha
  rw [limitGate] at ha
  rcases List.mem_append.mp ha with h | h
  · exact btcGate_acts _ _ _ a h
  · exact ratGate_acts _ _ _ a h

/-- C8 amended: when a position limit is configured and reduce-mode still
holds after the threshold update (i.e. it is not released in the same
call by |net_size| dropping below the release threshold), a
position-increasing order (BUY while LONG, SELL while SHORT) is dropped
before reaching the adapter: the call returns the gate state and its
trace holds only cancels. -/
theorem c8_reduce_mode_skip (cfg : EngineCfg) (pos : PosCtx) (lot : ℚ) (st : EState)
    (side : Side) (px : ℚ)
    (hlim : 0 < cfg.lim.sizeLimitBtc ∨ 0 < cfg.lim.reduceOnlyBtc ∨
      0 < cfg.lim.sizeLimitRat ∨ 0 < cfg.lim.reduceOnlyRat)
    (hdir : (pos.posSide = some PosSide.long ∧ side = Side.buy) ∨
      (pos.posSide = some PosSide.short ∧ side = Side.sell))
    (hrm : (limitGate cfg pos st).1.reduceMode = true) :
    placeOrder cfg pos lot st side px = limitGate cfg pos st
  ∧ ∀ a ∈ (placeOrder cfg pos lot st side px).2, ∃ oid, a = GAct.cancel oid := by
  have hinc : increasesPosition pos side = true := by
    rcases hdir with ⟨h1, h2⟩ | ⟨h1, h2⟩ <;> simp [increasesPosition, h1, h2]
  have hpl : placeOrder cfg pos lot st side px = limitGate cfg pos st := by
    rw [placeOrder, if_pos hlim]
    dsimp only
    rw [if_pos ⟨hrm, hinc⟩]
  refine ⟨hpl, ?_⟩
  rw [hpl]
  exact limitGate_acts cfg pos st

/-- Engine parameters with the BTC limit group configured (limit 1,
release 0.5). -/
def c8cfg : EngineCfg := ⟨50, 100, 3, 1 / 10, 1 / 100, true, ⟨1, 1 / 2, 0, 0⟩⟩

/-- A LONG position of 0.3 BTC, below the release threshold. -/
def c8pos : PosCtx := ⟨3 / 10, some PosSide.long, none, none⟩

/-- An engine state with `_reduce_mode` set at entry. -/
def c8st : EState := ⟨[], [], [], true, 0, 1⟩

attribute [local semireducible] Rat.add Rat.mul Rat.inv Rat.sub in
/-- C8 counterexample: with `_reduce_mode = true` at entry and a LONG
position of 0.3 (below the 0.5 release threshold), `_place_order` first
releases reduce-mode and then submits the BUY — so "reduce-mode true and
LONG implies no BUY submitted" fails as stated. -/
theorem c8_counterexample :
    c8st.reduceMode = true
  ∧ c8pos.posSide = some PosSide.long
  ∧ (placeOrder c8cfg c8pos 0 c8st Side.buy 29850).2 = [GAct.submit Side.buy 29850 (1 / 100)]
  ∧ (placeOrder c8cfg c8pos 0 c8st Side.buy 29850).1.reduceMode = false := by
  decide

attribute [local semireducible] Rat.add Rat.mul Rat.inv Rat.sub in
/-- C8 witness. -/
theorem c8_reduce_mode_skip_witness :
    placeOrder c8cfg ⟨2, some PosSide.long, none, none⟩ 0 ⟨[], [], [], true, 0, 1⟩ Side.buy 100 =
      limitGate c8cfg ⟨2, some PosSide.long, none, none⟩ ⟨[], [], [], true, 0, 1⟩ :=
  (c8_reduce_mode_skip c8cfg ⟨2, some PosSide.long, none, none⟩ 0 ⟨[], [], [], true, 0, 1⟩
    Side.buy 100 (by norm_num [c8cfg]) (Or.inl ⟨rfl, rfl⟩) (by decide)).1

theorem submitStep_qty (cfg : EngineCfg) (lot : ℚ) (st : EState) (side : Side) (px : ℚ)
    (sd : Side) (p q : ℚ) (hq : GAct.submit sd p q ∈ (submitStep cfg lot st side px).2) :
    q = cfg.size * (if lot ≤ 0 then 1 else lot) := by
  rw [submitStep] at hq
  split at hq
  · simp at hq
  · split at hq
    · simp at hq
    · rw [mul_ite, mul_one]
      cases side <;> dsimp only at hq <;> simp at hq <;> exact hq.2.2

/-- C10: the lot coefficient is 0 outside every schedule interval, and
every quantity `_place_order` submits is `size * lot_coefficient` with 1
substituted for a non-positive coefficient — equal to `size` in that case
and positive whenever `size` is. -/
theorem c10_lot_substitution (scheds : List SchedEntry) (now : ℚ) (cfg : EngineCfg)
    (pos : PosCtx) (st : EState) (side : Side) (px : ℚ) (hsz : 0 < cfg.size) :
    ((∀ s ∈ scheds, ¬ (s.fromT ≤ now ∧ now ≤ s.toT)) → getLotCoefficient scheds now = 0)
  ∧ (∀ sd p q, GAct.submit sd p q ∈
        (placeOrder cfg pos (getLotCoefficient scheds now) st side px).2 →
      (getLotCoefficient scheds now ≤ 0 → q = cfg.size) ∧ 0 < q) := by
  constructor
  · intro hout
    rw [getLotCoefficient, getCurrentSchedule]
    have hnone : scheds.find? (fun s => decide (s.fromT ≤ now) && decide (now ≤ s.toT)) = none := by
      rw [List.find?_eq_none]
      intro x hx
      simp only [Bool.and_eq_true, decide_eq_true_eq, not_and]
      intro h1 h2
      exact hout x hx ⟨h1, h2⟩
    rw [hnone]
  · intro sd p q hq
    have hqty : q = cfg.size * (if getLotCoefficient scheds now ≤ 0 then 1
        else getLotCoefficient scheds now) := by
      by_cases hlim : 0 < cfg.lim.sizeLimitBtc ∨ 0 < cfg.lim.reduceOnlyBtc ∨
          0 < cfg.lim.sizeLimitRat ∨ 0 < cfg.lim.reduceOnlyRat
      · rw [placeOrder, if_pos hlim] at hq
        dsimp only at hq
        split at hq
        · rcases limitGate_acts cfg pos st _ hq with ⟨oid, h⟩
          cases h
        · rcases List.mem_append.mp hq with h | h
          · rcases limitGate_acts cfg pos st _ h with ⟨oid, he⟩
            cases he
          · exact submitStep_qty cfg _ _ side px sd p q h
      · rw [placeOrder, if_neg hlim] at hq
        exact submitStep_qty cfg _ _ side px sd p q hq
    constructor
    · intro hle
      rw [hqty, if_pos hle, mul_one]
    · rw [hqty]
      by_cases hle : getLotCoefficient scheds now ≤ 0
      · rw [if_pos hle, mul_one]
        exact hsz
      · rw [if_neg hle]
        exact mul_pos hsz (lt_of_not_le hle)

attribute [local semireducible] Rat.add Rat.mul Rat.inv Rat.sub in
/-- C10 witness. -/
theorem c10_lot_substitution_witness :
    ((∀ s ∈ ([] : List SchedEntry), ¬ (s.fromT ≤ (0 : ℚ) ∧ (0 : ℚ) ≤ s.toT)) →
      getLotCoefficient [] 0 = 0)
  ∧ (∀ sd p q, GAct.submit sd p q ∈
        (placeOrder c1cfg c1pos (getLotCoefficient [] 0) c1st Side.buy 100).2 →
      (getLotCoefficient [] 0 ≤ 0 → q = c1cfg.size) ∧ 0 < q) :=
  c10_lot_substitution [] 0 c1cfg c1pos c1st Side.buy 100 (by norm_num [c1cfg])

def isCancel : GAct → Bool
  | .cancel _ => true
  | _ => false

/-- Number of cancel operations in an action trace. -/
def cancelCount (l : List GAct) : ℕ := (l.filter isCancel).length

theorem cancelCount_append (l1 l2 : List GAct) :
    cancelCount (l1 ++ l2) = cancelCount l1 + cancelCount l2 := by
  simp [cancelCount, List.filter_append]

theorem submitStep_cancelCount (cfg : EngineCfg) (lot : ℚ) (st : EState) (side : Side)
    (px : ℚ) : cancelCount (submitStep cfg lot st side px).2 = 0 := by
  rw [submitStep]
  split
  · rfl
  · split
    · rfl
    · cases side <;> simp [cancelCount, isCancel]

theorem btcGate_acts_nil (cfg : EngineCfg) (pos : PosCtx) (st : EState)
    (h : pos.posSide = none) : (btcGate cfg pos st).2 = [] := by
  rw [btcGate]
  split
  · dsimp only
    split
    · rw [h]
    · rfl
  · rfl

theorem ratGate_acts_nil (cfg : EngineCfg) (pos : PosCtx) (st1 : EState)
    (h : pos.posSide = none) : (ratGate cfg pos st1).2 = [] := by
  rw [ratGate]
  split
  · split
    · split
      · split
        · dsimp only
          split
          · rw [h]
          · rfl
        · rfl
      · rfl
    · rfl
  · rfl

theorem placeOrder_cancelCount (cfg : EngineCfg) (pos : PosCtx) (lot : ℚ) (st : EState)
    (side : Side) (px : ℚ) (h : pos.posSide = none) :
    cancelCount (placeOrder cfg pos lot st side px).2 = 0 := by
  have hg : (limitGate cfg pos st).2 = [] := by
    rw [limitGate]
    dsimp only
    rw [btcGate_acts_nil cfg pos st h, ratGate_acts_nil cfg pos _ h]
    rfl
  rw [placeOrder]
  split
  · dsimp only
    split
    · rw [hg]
      rfl
    · rw [cancelCount_append, hg, submitStep_cancelCount]
      rfl
  · exact submitStep_cancelCount cfg lot st side px

theorem buyReplenish_cancelCount (cfg : EngineCfg) (pos : PosCtx) (lot : ℚ)
    (fb : List ℚ) (st1 : EState) (snap : Option (List OrderRow)) (h : pos.posSide = none) :
    cancelCount (buyReplenish cfg pos lot fb st1 snap).2.2 ≤ 1 := by
  rw [buyReplenish]
  split
  · exact Nat.zero_le 1
  · dsimp only
    rw [cancelCount_append, cancelCount_append]
    have h1 : cancelCount (match pmPopMax st1.sells with
        | some (_, oid, rest) =>
          ({ st1 with sells := rest, cache := removeFromCache st1.cache oid },
           some (snap.getD st1.cache), [GAct.cancel oid])
        | none => (st1, snap, [])).2.2 ≤ 1 := by
      split <;> simp [cancelCount, isCancel]
    have h2 : ∀ (stx : EState) (p : ℚ),
        cancelCount (if !(pmHas stx.sells p) ∧ 0 < p then placeOrder cfg pos lot stx Side.sell p
          else (stx, [])).2 = 0 := by
      intro stx p
      split
      · exact placeOrder_cancelCount cfg pos lot stx Side.sell p h
      · rfl
    have h3 : ∀ (stx : EState) (p : ℚ),
        cancelCount (if 0 < p ∧ !(pmHas stx.buys p) then placeOrder cfg pos lot stx Side.buy p
          else (stx, [])).2 = 0 := by
      intro stx p
      split
      · exact placeOrder_cancelCount cfg pos lot stx Side.buy p h
      · rfl
    rw [h2, h3]
    omega

theorem sellReplenish_cancelCount (cfg : EngineCfg) (pos : PosCtx) (lot : ℚ)
    (fs : List ℚ) (st2 : EState) (snap : Option (List OrderRow)) (h : pos.posSide = none) :
    cancelCount (sellReplenish cfg pos lot fs st2 snap).2.2 ≤ 1 := by
  rw [sellReplenish]
  split
  · exact Nat.zero_le 1
  · dsimp only
    rw [cancelCount_append, cancelCount_append]
    have h1 : cancelCount (match pmPopMin st2.buys with
        | some (_, oid, rest) =>
          ({ st2 with buys := rest, cache := removeFromCache st2.cache oid },
           some (snap.getD st2.cache), [GAct.cancel oid])
        | none => (st2, snap, [])).2.2 ≤ 1 := by
      split <;> simp [cancelCount, isCancel]
    have h2 : ∀ (stx : EState) (p : ℚ),
        cancelCount (if !(pmHas stx.buys p) ∧ 0 < p then placeOrder cfg pos lot stx Side.buy p
          else (stx, [])).2 = 0 := by
      intro stx p
      split
      · exact placeOrder_cancelCount cfg pos lot stx Side.buy p h
      · rfl
    have h3 : ∀ (stx : EState) (p : ℚ),
        cancelCount (if !(pmHas stx.sells p) then placeOrder cfg pos lot stx Side.sell p
          else (stx, [])).2 = 0 := by
      intro stx p
      split
      · exact placeOrder_cancelCount cfg pos lot stx Side.sell p h
      · rfl
    rw [h2, h3]
    omega

theorem enforcePass_off (cfg : EngineCfg) (st3 : EState) (snap : Option (List OrderRow))
    (h : cfg.enforceLevels = false) :
    enforcePass cfg st3 snap = (st3, []) := by
  rw [enforcePass, if_neg]
  rw [h]
  exact Bool.false_ne_true

/-- Engine parameters of the replenishment scenarios. -/
def c2cfg : EngineCfg := ⟨50, 100, 3, 1 / 10, 1 / 100, true, ⟨1, 1 / 2, 0, 0⟩⟩

/-- A flat position context. -/
def c2pos : PosCtx := ⟨0, none, none, none⟩

/-- Scenario-1 grid with the order at 29850 (id 1) filled: the cached OPEN
set lacks id 1. -/
def c2stF : EState :=
  ⟨[(29850, 1), (29800, 2), (29750, 3)], [(30150, 4), (30200, 5), (30250, 6)],
   [⟨some 2, some sBUY, some 29800, some sOPEN⟩, ⟨some 3, some sBUY, some 29750, some sOPEN⟩,
    ⟨some 4, some sSELL, some 30150, some sOPEN⟩, ⟨some 5, some sSELL, some 30200, some sOPEN⟩,
    ⟨some 6, some sSELL, some 30250, some sOPEN⟩],
   false, 0, 7⟩

/-- Scenario-1 grid with the two orders at 29850 and 29800 (ids 1 and 2)
both filled within the tick. -/
def c2stK2 : EState :=
  ⟨[(29850, 1), (29800, 2), (29750, 3)], [(30150, 4), (30200, 5), (30250, 6)],
   [⟨some 3, some sBUY, some 29750, some sOPEN⟩, ⟨some 4, some sSELL, some 30150, some sOPEN⟩,
    ⟨some 5, some sSELL, some 30200, some sOPEN⟩, ⟨some 6, some sSELL, some 30250, some sOPEN⟩],
   false, 0, 7⟩

attribute [local semireducible] Rat.add Rat.mul Rat.inv Rat.sub in
/-- C2 counterexample: two BUY fills are detected in one tick, yet the
anchor update runs only once — the resulting SELL rungs are
{30100, 30150, 30200} and the BUY rungs {29700, 29750}, not the
twice-shifted sets the per-fill reading predicts.  The only cancel calls
in the trace are the single far-SELL anchor cancel (id 6) and the
unmanaged-order sweep's re-cancel of that same id 6: the sweep walks the
stale entry-time list, in which the already-cancelled far SELL still
appears and, having been popped from the mirror, no longer counts as
managed. -/
theorem c2_counterexample :
    (c2stK2.buys.filter
        (fun e => !(decide (e.2 ∈ c2stK2.cache.filterMap (fun r => r.oid))))).length = 2
  ∧ (replenishIfFilled c2cfg c2pos 0 c2stK2).2.filter isCancel
      = [GAct.cancel 6, GAct.cancel 6]
  ∧ sortAsc (pmKeys (replenishIfFilled c2cfg c2pos 0 c2stK2).1.sells) = [30100, 30150, 30200]
  ∧ sortAsc (pmKeys (replenishIfFilled c2cfg c2pos 0 c2stK2).1.buys) = [29700, 29750] := by
  decide

attribute [local semireducible] Rat.add Rat.mul Rat.inv Rat.sub in
/-- C2 amended: the cancel-and-two-adds anchor update runs once per tick
per side — at most one far-SELL cancel and one far-BUY cancel per
replenishment pass whatever the number of fills (stated here with the
unmanaged-order sweep off and a flat position, so the count isolates the
anchor rule) — and on the spec's own single-fill scenario (the buy at
29850 fills) it yields sells {30100, 30150, 30200} and buys
{29700, 29750, 29800}. -/
theorem c2_replenish_once_per_tick :
    (∀ (cfg : EngineCfg) (pos : PosCtx) (lot : ℚ) (st : EState),
        cfg.enforceLevels = false → pos.posSide = none →
        cancelCount (replenishIfFilled cfg pos lot st).2 ≤ 2)
  ∧ sortAsc (pmKeys (replenishIfFilled c2cfg c2pos 0 c2stF).1.sells) = [30100, 30150, 30200]
  ∧ sortAsc (pmKeys (replenishIfFilled c2cfg c2pos 0 c2stF).1.buys) = [29700, 29750, 29800] := by
  refine ⟨?_, by decide, by decide⟩
  intro cfg pos lot st hEnf hFlat
  rw [replenishIfFilled]
  dsimp only
  rw [enforcePass_off cfg _ _ hEnf]
  rw [cancelCount_append, cancelCount_append]
  have hnil : cancelCount ([] : List GAct) = 0 := rfl
  rw [hnil, Nat.add_zero]
  exact Nat.add_le_add (buyReplenish_cancelCount cfg pos lot _ _ _ hFlat)
    (sellReplenish_cancelCount cfg pos lot _ _ _ hFlat)

/-- C2 witness. -/
theorem c2_replenish_once_witness :
    cancelCount (replenishIfFilled ⟨50, 100, 3, 1 / 10, 1 / 100, false, ⟨1, 1 / 2, 0, 0⟩⟩
      c2pos 0 c2stF).2 ≤ 2 :=
  c2_replenish_once_per_tick.1 ⟨50, 100, 3, 1 / 10, 1 / 100, false, ⟨1, 1 / 2, 0, 0⟩⟩
    c2pos 0 c2stF rfl rfl

theorem pmInsert_length (m : PMap) (k : ℚ) (v : OrderId) :
    (pmInsert m k v).length ≤ m.length + 1 := by
  rw [pmInsert]
  split
  · rw [List.length_map]
    omega
  · rw [List.length_append]
    simp

theorem bumpSkip_buys_le (cfg : EngineCfg) (st : EState) :
    (bumpSkip cfg st).buys.length ≤ st.buys.length := by
  rw [bumpSkip]
  split <;> simp

theorem bumpSkip_sells_le (cfg : EngineCfg) (st : EState) :
    (bumpSkip cfg st).sells.length ≤ st.sells.length := by
  rw [bumpSkip]
  split <;> simp

theorem cancelSideOrders_buys_le (st : EState) (ps : PosSide) :
    (cancelSideOrders st ps).1.buys.length ≤ st.buys.length := by
  cases ps <;> simp [cancelSideOrders]

theorem cancelSideOrders_sells_le (st : EState) (ps : PosSide) :
    (cancelSideOrders st ps).1.sells.length ≤ st.sells.length := by
  cases ps <;> simp [cancelSideOrders]

theorem btcGate_buys_le (cfg : EngineCfg) (pos : PosCtx) (st : EState) :
    (btcGate cfg pos st).1.buys.length ≤ st.buys.length := by
  rw [btcGate]
  split
  · dsimp only
    split
    · split
      · split
        · exact cancelSideOrders_buys_le _ _
        · simp
      · split
        · exact cancelSideOrders_buys_le _ _
        · simp
    · split
      · simp
      · simp
  · simp

theorem btcGate_sells_le (cfg : EngineCfg) (pos : PosCtx) (st : EState) :
    (btcGate cfg pos st).1.sells.length ≤ st.sells.length := by
  rw [btcGate]
  split
  · dsimp only
    split
    · split
      · split
        · exact cancelSideOrders_sells_le _ _
        · simp
      · split
        · exact cancelSideOrders_sells_le _ _
        · simp
    · split
      · simp
      · simp
  · simp

theorem ratGate_buys_le (cfg : EngineCfg) (pos : PosCtx) (st1 : EState) :
    (ratGate cfg pos st1).1.buys.length ≤ st1.buys.length := by
  rw [ratGate]
  split
  · split
    · split
      · split
        · dsimp only
          split
          · split
            · split
              · exact cancelSideOrders_buys_le _ _
              · simp
            · split
              · exact cancelSideOrders_buys_le _ _
              · simp
          · split
            · simp
            · simp
        · simp
      · simp
    · simp
  · simp

theorem ratGate_sells_le (cfg : EngineCfg) (pos : PosCtx) (st1 : EState) :
    (ratGate cfg pos st1).1.sells.length ≤ st1.sells.length := by
  rw [ratGate]
  split
  · split
    · split
      · split
        · dsimp only
          split
          · split
            · split
              · exact cancelSideOrders_sells_le _ _
              · simp
            · split
              · exact cancelSideOrders_sells_le _ _
              · simp
          · split
            · simp
            · simp
        · simp
      · simp
    · simp
  · simp

theorem limitGate_buys_le (cfg : EngineCfg) (pos : PosCtx) (st : EState) :
    (limitGate cfg pos st).1.buys.length ≤ st.buys.length := by
  rw [limitGate]
  exact le_trans (ratGate_buys_le cfg pos _) (btcGate_buys_le cfg pos st)

theorem limitGate_sells_le (cfg : EngineCfg) (pos : PosCtx) (st : EState) :
    (limitGate cfg pos st).1.sells.length ≤ st.sells.length := by
  rw [limitGate]
  exact le_trans (ratGate_sells_le cfg pos _) (btcGate_sells_le cfg pos st)

theorem submitStep_buys_buy (cfg : EngineCfg) (lot : ℚ) (st : EState) (px : ℚ) :
    (submitStep cfg lot st Side.buy px).1.buys.length ≤ st.buys.length + 1 := by
  rw [submitStep]
  split
  · exact le_trans (bumpSkip_buys_le cfg st) (Nat.le_succ _)
  · split
    · exact le_trans (bumpSkip_buys_le cfg st) (Nat.le_succ _)
    · exact pmInsert_length _ _ _

theorem submitStep_buys_sell (cfg : EngineCfg) (lot : ℚ) (st : EState) (px : ℚ) :
    (submitStep cfg lot st Side.sell px).1.buys.length ≤ st.buys.length := by
  rw [submitStep]
  split
  · exact bumpSkip_buys_le cfg st
  · split
    · exact bumpSkip_buys_le cfg st
    · exact Nat.le_refl _

theorem submitStep_sells_sell (cfg : EngineCfg) (lot : ℚ) (st : EState) (px : ℚ) :
    (submitStep cfg lot st Side.sell px).1.sells.length ≤ st.sells.length + 1 := by
  rw [submitStep]
  split
  · exact le_trans (bumpSkip_sells_le cfg st) (Nat.le_succ _)
  · split
    · exact le_trans (bumpSkip_sells_le cfg st) (Nat.le_succ _)
    · exact pmInsert_length _ _ _

theorem submitStep_sells_buy (cfg : EngineCfg) (lot : ℚ) (st : EState) (px : ℚ) :
    (submitStep cfg lot st Side.buy px).1.sells.length ≤ st.sells.length := by
  rw [submitStep]
  split
  · exact bumpSkip_sells_le cfg st
  · split
    · exact bumpSkip_sells_le cfg st
    · exact Nat.le_refl _

theorem placeOrder_buys_buy (cfg : EngineCfg) (pos : PosCtx) (lot : ℚ) (st : EState)
    (px : ℚ) : (placeOrder cfg pos lot st Side.buy px).1.buys.length ≤ st.buys.length + 1 := by
  rw [placeOrder]
  split
  · dsimp only
    split
    · exact le_trans (limitGate_buys_le cfg pos st) (Nat.le_succ _)
    · exact le_trans (submitStep_buys_buy cfg lot _ px)
        (Nat.add_le_add_right (limitGate_buys_le cfg pos st) 1)
  · exact submitStep_buys_buy cfg lot st px

theorem placeOrder_buys_sell (cfg : EngineCfg) (pos : PosCtx) (lot : ℚ) (st : EState)
    (px : ℚ) : (placeOrder cfg pos lot st Side.sell px).1.buys.length ≤ st.buys.length := by
  rw [placeOrder]
  split
  · dsimp only
    split
    · exact limitGate_buys_le cfg pos st
    · exact le_trans (submitStep_buys_sell cfg lot _ px) (limitGate_buys_le cfg pos st)
  · exact submitStep_buys_sell cfg lot st px

theorem placeOrder_sells_sell (cfg : EngineCfg) (pos : PosCtx) (lot : ℚ) (st : EState)
    (px : ℚ) : (placeOrder cfg pos lot st Side.sell px).1.sells.length ≤ st.sells.length + 1 := by
  rw [placeOrder]
  split
  · dsimp only
    split
    · exact le_trans (limitGate_sells_le cfg pos st) (Nat.le_succ _)
    · exact le_trans (submitStep_sells_sell cfg lot _ px)
        (Nat.add_le_add_right (limitGate_sells_le cfg pos st) 1)
  · exact submitStep_sells_sell cfg lot st px

theorem placeOrder_sells_buy (cfg : EngineCfg) (pos : PosCtx) (lot : ℚ) (st : EState)
    (px : ℚ) : (placeOrder cfg pos lot st Side.buy px).1.sells.length ≤ st.sells.length := by
  rw [placeOrder]
  split
  · dsimp only
    split
    · exact limitGate_sells_le cfg pos st
    · exact le_trans (submitStep_sells_buy cfg lot _ px) (limitGate_sells_le cfg pos st)
  · exact submitStep_sells_buy cfg lot st px

theorem altLoop_len (cfg : EngineCfg) (pos : PosCtx) (lot : ℚ) :
    ∀ (fuel : ℕ) (cur : Side) (bl sl : List ℚ) (st : EState),
      (altLoop cfg pos lot fuel cur bl sl st).1.buys.length ≤ st.buys.length + bl.length
    ∧ (altLoop cfg pos lot fuel cur bl sl st).1.sells.length ≤ st.sells.length + sl.length := by
  intro fuel
  induction fuel with
  | zero =>
    intro cur bl sl st
    constructor <;> simp [altLoop]
  | succ n ih =>
    intro cur bl sl st
    cases cur with
    | buy =>
      cases bl with
      | nil =>
        rw [altLoop]
        unfold altLoopBody
        dsimp only
        rw [if_neg Bool.false_ne_true]
        cases sl with
        | nil =>
          constructor <;> simp
        | cons py srest =>
          dsimp only
          split
          · dsimp only
            have hp1 := placeOrder_buys_sell cfg pos lot st py
            have hp2 := placeOrder_sells_sell cfg pos lot st py
            have h1 := (ih Side.sell [] srest (placeOrder cfg pos lot st Side.sell py).1).1
            have h2 := (ih Side.sell [] srest (placeOrder cfg pos lot st Side.sell py).1).2
            constructor
            · simp only [List.length_nil] at h1 ⊢
              omega
            · simp only [List.length_cons] at h2 ⊢
              omega
          · constructor <;> simp
      | cons px rest =>
        rw [altLoop]
        unfold altLoopBody
        dsimp only
        split
        · dsimp only
          rw [if_pos rfl]
          dsimp only
          have hp1 := placeOrder_buys_buy cfg pos lot st px
          have hp2 := placeOrder_sells_buy cfg pos lot st px
          have h1 := (ih Side.sell rest sl (placeOrder cfg pos lot st Side.buy px).1).1
          have h2 := (ih Side.sell rest sl (placeOrder cfg pos lot st Side.buy px).1).2
          constructor
          · simp only [List.length_cons] at h1 ⊢
            omega
          · omega
        · dsimp only
          rw [if_neg Bool.false_ne_true]
          cases sl with
          | nil =>
            constructor <;> simp
          | cons py srest =>
            dsimp only
            split
            · dsimp only
              have hp1 := placeOrder_buys_sell cfg pos lot st py
              have hp2 := placeOrder_sells_sell cfg pos lot st py
              have h1 := (ih Side.sell rest srest (placeOrder cfg pos lot st Side.sell py).1).1
              have h2 := (ih Side.sell rest srest (placeOrder cfg pos lot st Side.sell py).1).2
              constructor
              · simp only [List.length_cons] at h1 ⊢
                omega
              · simp only [List.length_cons] at h2 ⊢
                omega
            · constructor <;> simp
    | sell =>
      cases sl with
      | nil =>
        rw [altLoop]
        unfold altLoopBody
        dsimp only
        rw [if_neg Bool.false_ne_true]
        cases bl with
        | nil =>
          constructor <;> simp
        | cons px rest =>
          dsimp only
          split
          · dsimp only
            have hp1 := placeOrder_buys_buy cfg pos lot st px
            have hp2 := placeOrder_sells_buy cfg pos lot st px
            have h1 := (ih Side.buy rest [] (placeOrder cfg pos lot st Side.buy px).1).1
            have h2 := (ih Side.buy rest [] (placeOrder cfg pos lot st Side.buy px).1).2
            constructor
            · simp only [List.length_cons] at h1 ⊢
              omega
            · simp only [List.length_nil] at h2 ⊢
              omega
          · constructor <;> simp
      | cons py srest =>
        rw [altLoop]
        unfold altLoopBody
        dsimp only
        split
        · dsimp only
          rw [if_pos rfl]
          dsimp only
          have hp1 := placeOrder_buys_sell cfg pos lot st py
          have hp2 := placeOrder_sells_sell cfg pos lot st py
          have h1 := (ih Side.buy bl srest (placeOrder cfg pos lot st Side.sell py).1).1
          have h2 := (ih Side.buy bl srest (placeOrder cfg pos lot st Side.sell py).1).2
          constructor
          · omega
          · simp only [List.length_cons] at h2 ⊢
            omega
        · dsimp only
          rw [if_neg Bool.false_ne_true]
          cases bl with
          | nil =>
            constructor <;> simp
          | cons px rest =>
            dsimp only
            split
            · dsimp only
              have hp1 := placeOrder_buys_buy cfg pos lot st px
              have hp2 := placeOrder_sells_buy cfg pos lot st px
              have h1 := (ih Side.buy rest srest (placeOrder cfg pos lot st Side.buy px).1).1
              have h2 := (ih Side.buy rest srest (placeOrder cfg pos lot st Side.buy px).1).2
              constructor
              · simp only [List.length_cons] at h1 ⊢
                omega
              · simp only [List.length_cons] at h2 ⊢
                omega
            · constructor <;> simp

theorem insertAsc_length (x : ℚ) : ∀ l : List ℚ, (insertAsc x l).length = l.length + 1
  | [] => rfl
  | y :: ys => by
    rw [insertAsc]
    split
    · rfl
    · simp only [List.length_cons, insertAsc_length x ys]

theorem sortAsc_length (l : List ℚ) : (sortAsc l).length = l.length := by
  induction l with
  | nil => rfl
  | cons x xs ih =>
    rw [sortAsc, List.foldr_cons, insertAsc_length]
    rw [sortAsc] at ih
    rw [ih, List.length_cons]

theorem sortDesc_length (l : List ℚ) : (sortDesc l).length = l.length := by
  rw [sortDesc, List.length_reverse, sortAsc_length]

theorem boxBuyTargets_length (mid s X : ℚ) (L : ℕ) : (boxBuyTargets mid s X L).length ≤ L := by
  rw [boxBuyTargets, List.length_map]
  refine le_trans (List.length_filter_le _ _) ?_
  rw [List.length_map, List.length_range]

theorem boxSellTargets_length (mid s X : ℚ) (L : ℕ) : (boxSellTargets mid s X L).length ≤ L := by
  rw [boxSellTargets, List.length_map]
  refine le_trans (List.length_filter_le _ _) ?_
  rw [List.length_map, List.length_range]

theorem cancelPhase_nil : ∀ (toCancel : List ℚ), cancelPhase [] toCancel = ([], []) := by
  intro toCancel
  rw [cancelPhase]
  induction toCancel with
  | nil => rfl
  | cons x xs ih => simpa [pmLookup] using ih

/-- Two cached OPEN BUY rows at distinct prices (e.g. left over from a
prior run of the bot). -/
def c4rows : List OrderRow :=
  [⟨some 1, some sBUY, some 100, some sOPEN⟩, ⟨some 2, some sBUY, some 150, some sOPEN⟩]

/-- C4 counterexample: a mirror rebuild from a snapshot holding two OPEN
BUY orders yields two buy rungs — above the bound L = 1 the claim asserts
for every rebuild. -/
theorem c4_counterexample :
    (syncActiveOrders c4rows).1.length = 2 ∧ 1 < (syncActiveOrders c4rows).1.length := by
  decide

/-- C4 amended: a BOX placement pass started from an empty mirror leaves
at most `levels` rungs per side; the ≤ L bound does not survive a rebuild
from a snapshot with more than L same-side OPEN orders
(`c4_counterexample`). -/
theorem c4_cold_pass_bounded (cfg : EngineCfg) (pos : PosCtx) (lot mid : ℚ)
    (cache : List OrderRow) (rm : Bool) (k n : ℕ) :
    (ensureGridBox cfg pos lot ⟨[], [], cache, rm, k, n⟩ mid).1.buys.length ≤ cfg.levels
  ∧ (ensureGridBox cfg pos lot ⟨[], [], cache, rm, k, n⟩ mid).1.sells.length ≤ cfg.levels := by
  rw [ensureGridBox]
  split
  · constructor <;> simp
  · dsimp only
    rw [cancelPhase_nil]
    dsimp only
    rw [cancelPhase_nil]
    dsimp only
    split
    · constructor <;> simp
    · refine ⟨le_trans (altLoop_len cfg pos lot _ _ _ _ _).1 ?_,
        le_trans (altLoop_len cfg pos lot _ _ _ _ _).2 ?_⟩
      · simp only [List.length_nil, Nat.zero_add]
        rw [sortDesc_length]
        refine le_trans (List.length_filter_le _ _) ?_
        refine le_trans (List.Sublist.length_le (List.dedup_sublist _)) ?_
        exact boxBuyTargets_length mid cfg.step cfg.firstOffset cfg.levels
      · simp only [List.length_nil, Nat.zero_add]
        rw [sortAsc_length]
        refine le_trans (List.length_filter_le _ _) ?_
        refine le_trans (List.Sublist.length_le (List.dedup_sublist _)) ?_
        exact boxSellTargets_length mid cfg.step cfg.firstOffset cfg.levels
